import Mathlib

/-!
Verification of the resume-analyzer skill-matching and scoring pipeline.

Modelling conventions, used throughout:

* A Python `str` is modelled as a `List ℕ` of Unicode code points (`PyStr`);
  `pyStr` converts a Lean string literal.  The character classes `\s`, `\w`,
  `\d` and `str.lower()` are modelled at their ASCII meaning (the repository
  only ever feeds ASCII text through the paths the claims are about).
* Python floats are modelled as exact rationals (`ℚ`).  `round(x, d)` is
  modelled as `pyRound d`, decimal round-half-to-even, which is what
  `round` computes on a float whose value is exactly representable; the
  claims under verification only exercise it away from representation-error
  ties.
* `fuzzywuzzy.fuzz.ratio` (an external C/Python library) and the sentence
  embedding model behind `Embedder` are external dependencies; they are
  modelled as explicit function parameters (`fuzz`, `sim`), exactly the
  injection the spec's design notes prescribe.  Every theorem quantifies
  over them or instantiates them with values the real libraries can
  produce (`fuzz.ratio` and cosine similarity of a string with itself,
  for instance, are 100 resp. 1).
* Python `set` iteration order is unspecified; sets are modelled as
  first-occurrence-deduplicated lists (`List.dedup` keeps the first copy).
  All properties proved about set-valued results are order-independent.
-/

/-- A Python `str`, as its sequence of Unicode code points. -/
abbrev PyStr := List ℕ

/-- Code points of a Lean string literal. -/
def pyStr (s : String) : PyStr := s.toList.map Char.toNat

/-- Python regex `\s` (ASCII scope): space, tab, newline, CR, VT, FF. -/
def isPySpace (n : ℕ) : Bool := n = 32 || n = 9 || n = 10 || n = 13 || n = 11 || n = 12

/-- Python regex `\d` (ASCII scope). -/
def isPyDigit (n : ℕ) : Bool := 48 ≤ n && n ≤ 57

/-- ASCII letter. -/
def isPyAlpha (n : ℕ) : Bool := (65 ≤ n && n ≤ 90) || (97 ≤ n && n ≤ 122)

/-- Python regex `\w` (ASCII scope): letter, digit or underscore. -/
def isPyWord (n : ℕ) : Bool := isPyAlpha n || isPyDigit n || n = 95

/-- Lower-case a single code point, as `str.lower()` does on ASCII. -/
def pyLowerChar (n : ℕ) : ℕ := if 65 ≤ n ∧ n ≤ 90 then n + 32 else n

/-- Python `str.lower()` (ASCII scope). -/
def pyLower (s : PyStr) : PyStr := s.map pyLowerChar

/-- Drop leading whitespace. -/
def pyStripLeft (s : PyStr) : PyStr := s.dropWhile (fun n => isPySpace n)

/-- Python `str.strip()`: drop leading and trailing whitespace. -/
def pyStrip (s : PyStr) : PyStr := (pyStripLeft (pyStripLeft s).reverse).reverse

/-- Python `needle in hay` substring test. -/
def pyContains (hay needle : PyStr) : Bool :=
  needle.isPrefixOf hay ||
    match hay with
    | [] => false
    | _ :: t => pyContains t needle

/-- Numeric value of a run of ASCII digit code points. -/
def digitsVal (ds : PyStr) : ℕ := ds.foldl (fun a d => a * 10 + (d - 48)) 0

/-- Round a rational to the nearest integer, ties to even — the rounding
Python's `round` applies to the exact value of its argument. -/
def roundHalfEven (x : ℚ) : ℤ :=
  if x - ⌊x⌋ < 1 / 2 then ⌊x⌋
  else if 1 / 2 < x - ⌊x⌋ then ⌊x⌋ + 1
  else if ⌊x⌋ % 2 = 0 then ⌊x⌋ else ⌊x⌋ + 1

/-- Python `round(x, d)` on the exact value of `x`. -/
def pyRound (d : ℕ) (x : ℚ) : ℚ := (roundHalfEven (x * 10 ^ d) : ℚ) / 10 ^ d

namespace ExperienceScorer

/-- Embedding of `ExperienceScorer.calculate_experience_score`
(src/src/scoring/experience_scorer.py).  `None` years are `none`;
the Python float literals 1.5, 0.8, 0.6, 0.4 are the exact rationals
3/2, 4/5, 3/5, 2/5.  This variant returns the raw score, unrounded,
exactly as the source does. -/
def calculate_experience_score (candidate_years required_years : Option ℚ) : ℚ :=
  match required_years with
  | none => 70
  | some r =>
    if r = 0 then 70
    else
      match candidate_years with
      | none => 50
      | some c =>
        if r ≤ c then
          if c ≤ r * (3 / 2) then 100
          else if c ≤ r * 2 then 95
          else 85
        else
          let t := c / r
          if 4 / 5 ≤ t then 80 + (t - 4 / 5) * 50
          else if 3 / 5 ≤ t then 60 + (t - 3 / 5) * 100
          else if 2 / 5 ≤ t then 40 + (t - 2 / 5) * 100
          else t * 100

end ExperienceScorer

namespace MatchScorer

/-- Default scoring weights of `MatchScorer.__init__`
(src/src/scoring/match_scorer.py): skills 0.4, semantic 0.3,
experience 0.2, qualifications 0.1.  A Python dict is modelled as an
association list (first binding wins on lookup). -/
def default_weights : List (PyStr × ℚ) :=
  [(pyStr "skills", 2 / 5), (pyStr "semantic", 3 / 10),
   (pyStr "experience", 1 / 5), (pyStr "qualifications", 1 / 10)]

/-- Sum of a weight dict's values, as `sum(weights.values())`. -/
def weights_sum (w : List (PyStr × ℚ)) : ℚ := (w.map Prod.snd).sum

/-- Python `w.get(key, default)` on the association-list model. -/
def weights_get (w : List (PyStr × ℚ)) (k : PyStr) (d : ℚ) : ℚ :=
  match w.find? (fun p => p.1 == k) with
  | some p => p.2
  | none => d

/-- Embedding of `MatchScorer.set_weights` as a state transformer:
given the currently stored weights and the new dict, it returns the
resulting stored weights together with a flag that is `true` exactly
when the method raises `ValueError` (in which case the stored weights
are unchanged).  The check is `abs(total - 1.0) > 0.01`. -/
def set_weights (stored w : List (PyStr × ℚ)) : List (PyStr × ℚ) × Bool :=
  if 1 / 100 < |weights_sum w - 1| then (stored, true) else (w, false)

/-- Embedding of `MatchScorer.calculate_skill_match_score`: fuzzy
matches count as 0.8 of an exact match, the rate is capped at 1 and
scaled to 0-100, rounded to one decimal; `required_count == 0` short
circuits to 100. -/
def calculate_skill_match_score (matched_count required_count fuzzy_matched_count : ℕ) : ℚ :=
  if required_count = 0 then 100
  else
    pyRound 1 (min (((matched_count : ℚ) + (fuzzy_matched_count : ℚ) * (4 / 5)) / (required_count : ℚ)) 1 * 100)

/-- Embedding of `MatchScorer.calculate_experience_score` (the scorer
variant in src/src/scoring/match_scorer.py, distinct from
`ExperienceScorer`'s): `None` on either side gives 50, a zero
requirement gives 100, and otherwise the banded score is rounded to
one decimal. -/
def calculate_experience_score (candidate_years required_years : Option ℚ) : ℚ :=
  match candidate_years, required_years with
  | none, _ => 50
  | _, none => 50
  | some c, some r =>
    if r = 0 then 100
    else
      let t := c / r
      let score : ℚ :=
        if 1 ≤ t then
          if t ≤ 3 / 2 then 100
          else if t ≤ 2 then 95
          else 90
        else if 4 / 5 ≤ t then 85 + (t - 4 / 5) * 75
        else if 3 / 5 ≤ t then 70 + (t - 3 / 5) * 75
        else if 2 / 5 ≤ t then 50 + (t - 2 / 5) * 100
        else t * 125
      pyRound 1 score

/-- Embedding of `MatchScorer.calculate_final_score`.  `None` scores
coerce to 0; a `None` (or empty, since `weights or self.weights` tests
Python truthiness) weights argument falls back to the stored default
weights; each sub-score is multiplied by `w.get(key, default)`; the sum
is clamped to [0, 100] and rounded to one decimal. -/
def calculate_final_score (skill_score semantic_score experience_score qualification_score : Option ℚ)
    (weights : Option (List (PyStr × ℚ))) : ℚ :=
  let w := match weights with
    | none => default_weights
    | some v => if v = [] then default_weights else v
  let s1 := skill_score.getD 0
  let s2 := semantic_score.getD 0
  let s3 := experience_score.getD 0
  let s4 := qualification_score.getD 0
  let fs := s1 * weights_get w (pyStr "skills") (2 / 5)
    + s2 * weights_get w (pyStr "semantic") (3 / 10)
    + s3 * weights_get w (pyStr "experience") (1 / 5)
    + s4 * weights_get w (pyStr "qualifications") (1 / 10)
  pyRound 1 (max 0 (min fs 100))

end MatchScorer

/-- Weight dict summing to 0.995: inside the 0.01 tolerance of
`set_weights` yet not equal to 1.0. -/
def weights_0995 : List (PyStr × ℚ) :=
  [(pyStr "skills", 2 / 5), (pyStr "semantic", 3 / 10),
   (pyStr "experience", 1 / 5), (pyStr "qualifications", 19 / 200)]

/-- Weight dict with every default weight halved (sum 0.5), used to show
`calculate_final_score` applies weights as given, with no renormalization. -/
def half_weights : List (PyStr × ℚ) :=
  [(pyStr "skills", 1 / 5), (pyStr "semantic", 3 / 20),
   (pyStr "experience", 1 / 10), (pyStr "qualifications", 1 / 20)]

namespace SimilarityMatcher

/-- Result record of `SimilarityMatcher.match_skills`
(src/src/processing/similarity_matcher.py). -/
structure MatchSkillsResult where
  matched_exact : List PyStr
  matched_fuzzy : List PyStr
  fuzzy_pairs : List (PyStr × PyStr × ℕ)
  missing : List PyStr
  extra : List PyStr
  total_required : ℕ
  total_matched : ℕ
  match_percentage : ℚ

/-- Normalization step of `match_skills`:
`[s.lower().strip() for s in skills if s]` — note the truthiness filter
runs before stripping, so whitespace-only entries survive as empty
strings. -/
def normalize_skills (skills : List PyStr) : List PyStr :=
  (skills.filter (fun s => decide (s ≠ []))).map (fun s => pyStrip (pyLower s))

/-- The Python `set(...)` of a normalized skill list, modelled as a
duplicate-free list (iteration order over Python sets is unspecified;
every property proved below is order-independent). -/
def skill_set (skills : List PyStr) : List PyStr := (normalize_skills skills).dedup

/-- The `matched_exact = list(resume_set & required_set)` intersection. -/
def matched_exact_of (resume_skills required_skills : List PyStr) : List PyStr :=
  (skill_set resume_skills).filter (fun s => decide (s ∈ skill_set required_skills))

/-- The `unmatched_required = required_set - set(matched_exact)` set. -/
def unmatched_required_of (resume_skills required_skills : List PyStr) : List PyStr :=
  (skill_set required_skills).filter (fun s => decide (s ∉ matched_exact_of resume_skills required_skills))

/-- The `unmatched_resume = resume_set - set(matched_exact)` pool. -/
def unmatched_resume_of (resume_skills required_skills : List PyStr) : List PyStr :=
  (skill_set resume_skills).filter (fun s => decide (s ∉ matched_exact_of resume_skills required_skills))

/-- Inner loop of the fuzzy pass: the best still-unconsumed resume skill
for one required skill — accept a candidate when its score reaches the
threshold and strictly beats the best so far (initially 0), first
encountered wins ties. -/
def best_fuzzy (fuzz : PyStr → PyStr → ℕ) (threshold : ℕ) (req : PyStr)
    (pool : List PyStr) : Option (PyStr × ℕ) :=
  pool.foldl
    (fun acc res =>
      match acc with
      | none => if threshold ≤ fuzz req res ∧ 0 < fuzz req res then some (res, fuzz req res) else none
      | some (b, bs) =>
        if threshold ≤ fuzz req res ∧ bs < fuzz req res then some (res, fuzz req res) else some (b, bs))
    none

/-- Fuzzy pass of `match_skills`: greedily match each unmatched required
skill against the unconsumed resume pool, discarding a consumed resume
skill from the pool.  Returns (matched_fuzzy, fuzzy_pairs, leftover
pool). -/
def fuzzy_pass (fuzz : PyStr → PyStr → ℕ) (threshold : ℕ) :
    List PyStr → List PyStr → List PyStr × List (PyStr × PyStr × ℕ) × List PyStr
  | [], pool => ([], [], pool)
  | req :: rest, pool =>
    match best_fuzzy fuzz threshold req pool with
    | some (b, bs) =>
      let r := fuzzy_pass fuzz threshold rest (pool.erase b)
      (req :: r.1, (req, b, bs) :: r.2.1, r.2.2)
    | none =>
      let r := fuzzy_pass fuzz threshold rest pool
      (r.1, r.2.1, r.2.2)

/-- The `matched_fuzzy` list of `match_skills`. -/
def matched_fuzzy_of (fuzz : PyStr → PyStr → ℕ) (threshold : ℕ)
    (resume_skills required_skills : List PyStr) : List PyStr :=
  (fuzzy_pass fuzz threshold (unmatched_required_of resume_skills required_skills)
    (unmatched_resume_of resume_skills required_skills)).1

/-- The `missing = unmatched_required - set(matched_fuzzy)` list. -/
def missing_of (fuzz : PyStr → PyStr → ℕ) (threshold : ℕ)
    (resume_skills required_skills : List PyStr) : List PyStr :=
  (unmatched_required_of resume_skills required_skills).filter
    (fun s => decide (s ∉ matched_fuzzy_of fuzz threshold resume_skills required_skills))

/-- Embedding of `SimilarityMatcher.match_skills`.  `fuzz` stands for
the external `fuzzywuzzy.fuzz.ratio` scorer (0-100); the threshold
defaulting (`self.default_threshold` = 85) is done by the caller. -/
def match_skills (fuzz : PyStr → PyStr → ℕ) (resume_skills required_skills : List PyStr)
    (threshold : ℕ) : MatchSkillsResult :=
  let required_norm := normalize_skills required_skills
  let fp := fuzzy_pass fuzz threshold (unmatched_required_of resume_skills required_skills)
    (unmatched_resume_of resume_skills required_skills)
  { matched_exact := matched_exact_of resume_skills required_skills
    matched_fuzzy := fp.1
    fuzzy_pairs := fp.2.1
    missing := missing_of fuzz threshold resume_skills required_skills
    extra := fp.2.2
    total_required := required_norm.length
    total_matched := (matched_exact_of resume_skills required_skills).length + fp.1.length
    match_percentage :=
      if required_norm = [] then 0
      else ((matched_exact_of resume_skills required_skills).length + fp.1.length : ℚ)
        / (required_norm.length : ℚ) * 100 }

end SimilarityMatcher

namespace Embedder

/-- Result record of `Embedder.semantic_skill_match`
(src/src/processing/embedder.py). -/
structure SemanticMatchResult where
  matched : List PyStr
  semantic_pairs : List (PyStr × PyStr × ℚ)
  unmatched_jd : List PyStr
  unmatched_resume : List PyStr

/-- Inner loop of the semantic pass: for one JD skill (column `jdIdx` of
the similarity matrix), the best resume index not yet consumed, where a
candidate must reach the threshold and strictly beat the best score so
far (initially 0). -/
def best_semantic (sim : ℕ → ℕ → ℚ) (threshold : ℚ) (jdIdx numResume : ℕ)
    (used : List ℕ) : Option (ℕ × ℚ) :=
  (List.range numResume).foldl
    (fun acc i =>
      if i ∈ used then acc
      else
        match acc with
        | none => if threshold ≤ sim i jdIdx ∧ 0 < sim i jdIdx then some (i, sim i jdIdx) else none
        | some (b, bs) =>
          if threshold ≤ sim i jdIdx ∧ bs < sim i jdIdx then some (i, sim i jdIdx) else some (b, bs))
    none

/-- Greedy loop of `semantic_skill_match` over the enumerated JD skills,
carrying the set of consumed resume indices.  Returns
(matched, semantic_pairs, matched_jd_idx, matched_resume_idx). -/
def semantic_pass (sim : ℕ → ℕ → ℚ) (threshold : ℚ) (resume2 : List PyStr) :
    List (ℕ × PyStr) → List ℕ → List PyStr × List (PyStr × PyStr × ℚ) × List ℕ × List ℕ
  | [], used => ([], [], [], used)
  | (j, skill) :: rest, used =>
    match best_semantic sim threshold j resume2.length used with
    | some (i, s) =>
      let r := semantic_pass sim threshold resume2 rest (i :: used)
      (skill :: r.1, (skill, resume2.getD i [], s) :: r.2.1, j :: r.2.2.1, r.2.2.2)
    | none =>
      let r := semantic_pass sim threshold resume2 rest used
      (r.1, r.2.1, r.2.2.1, r.2.2.2)

/-- Embedding of `Embedder.semantic_skill_match`.  The sentence
embedding model is external; `sim i j` stands for the cosine similarity
`similarity_matrix[i][j]` between resume skill `i` and JD skill `j`
after cleaning (any function the model could compute; cosine similarity
of a skill with itself is 1).  Note the method is invoked by `analyze`
on the full required list, not on the skills left over by the
exact/fuzzy passes, and it strips but does not lowercase its inputs. -/
def semantic_skill_match (sim : ℕ → ℕ → ℚ) (resume_skills jd_skills : List PyStr)
    (threshold : ℚ) : SemanticMatchResult :=
  if resume_skills = [] ∨ jd_skills = [] then
    { matched := [], semantic_pairs := [], unmatched_jd := jd_skills,
      unmatched_resume := resume_skills }
  else
    let resume2 := (resume_skills.filter (fun s => decide (s ≠ []) && decide (pyStrip s ≠ []))).map pyStrip
    let jd2 := (jd_skills.filter (fun s => decide (s ≠ []) && decide (pyStrip s ≠ []))).map pyStrip
    if resume2 = [] ∨ jd2 = [] then
      { matched := [], semantic_pairs := [], unmatched_jd := jd2, unmatched_resume := resume2 }
    else
      let r := semantic_pass sim threshold resume2 jd2.enum []
      { matched := r.1
        semantic_pairs := r.2.1
        unmatched_jd := (jd2.enum.filter (fun p => decide (p.1 ∉ r.2.2.1))).map Prod.snd
        unmatched_resume := (resume2.enum.filter (fun p => decide (p.1 ∉ r.2.2.2))).map Prod.snd }

end Embedder

-- Scanners for the years-of-experience regexes.  Each Python pattern is
-- translated into a deterministic matcher over code points; the regexes
-- involved have no observable backtracking except the optional
-- `(?:of\s+)?` / `(?:of)?` groups and the `in|with` / `years?|yrs?`
-- alternations, which are implemented as ordered alternatives exactly as
-- the regex engine tries them.  `re.findall` is the left-to-right
-- non-overlapping scan `findall` below (every match consumes at least
-- one character, so fuel `length` is enough and the fuel never runs out).

/-- Drop one occurrence of the code point `c` if it is next (an optional
single-character regex atom such as `\+?` or `s?`). -/
def optChar (c : ℕ) (cs : PyStr) : PyStr :=
  match cs with
  | [] => []
  | d :: t => if d = c then t else cs

/-- Match one literal code point. -/
def litChar (c : ℕ) (cs : PyStr) : Option PyStr :=
  match cs with
  | [] => none
  | d :: t => if d = c then some t else none

/-- Match a literal word. -/
def lit (w cs : PyStr) : Option PyStr :=
  if w.isPrefixOf cs then some (cs.drop w.length) else none

/-- Regex `\s*`: drop a maximal whitespace run. -/
def wsStar (cs : PyStr) : PyStr := cs.dropWhile (fun n => isPySpace n)

/-- Regex `\s+`: at least one whitespace then a maximal run. -/
def wsPlus (cs : PyStr) : Option PyStr :=
  match cs with
  | [] => none
  | c :: t => if isPySpace c then some (wsStar t) else none

/-- Regex `(\d+)`: a maximal digit run, captured as its value. -/
def matchNum (cs : PyStr) : Option (ℕ × PyStr) :=
  let ds := cs.takeWhile (fun n => isPyDigit n)
  if ds = [] then none
  else some (digitsVal ds, cs.dropWhile (fun n => isPyDigit n))

/-- Regex `(?:years?|yrs?)`: alternation tried in order, greedy `s?`. -/
def kwYears (cs : PyStr) : Option PyStr :=
  match lit (pyStr "year") cs with
  | some r => some (optChar 115 r)
  | none =>
    match lit (pyStr "yr") cs with
    | some r => some (optChar 115 r)
    | none => none

namespace ExperienceScorer

/-- Pattern `(\d+)\+?\s*(?:years?|yrs?)\s+(?:of\s+)?experience` of
`ExperienceScorer.extract_years_from_text`. -/
def matchP1 (cs : PyStr) : Option (ℕ × PyStr) :=
  match matchNum cs with
  | none => none
  | some (n, r1) =>
    match kwYears (wsStar (optChar 43 r1)) with
    | none => none
    | some r3 =>
      match wsPlus r3 with
      | none => none
      | some r4 =>
        match (match lit (pyStr "of") r4 with
               | some r5 =>
                 match wsPlus r5 with
                 | none => none
                 | some r6 => lit (pyStr "experience") r6
               | none => none) with
        | some r7 => some (n, r7)
        | none =>
          match lit (pyStr "experience") r4 with
          | some r7 => some (n, r7)
          | none => none

/-- Pattern `(\d+)\+?\s*(?:years?|yrs?)`. -/
def matchP2 (cs : PyStr) : Option (ℕ × PyStr) :=
  match matchNum cs with
  | none => none
  | some (n, r1) =>
    match kwYears (wsStar (optChar 43 r1)) with
    | none => none
    | some r3 => some (n, r3)

/-- Pattern `experience:\s*(\d+)\+?\s*(?:years?|yrs?)`. -/
def matchP3 (cs : PyStr) : Option (ℕ × PyStr) :=
  match lit (pyStr "experience") cs with
  | none => none
  | some r1 =>
    match litChar 58 r1 with
    | none => none
    | some r2 =>
      match matchNum (wsStar r2) with
      | none => none
      | some (n, r3) =>
        match kwYears (wsStar (optChar 43 r3)) with
        | none => none
        | some r5 => some (n, r5)

/-- Pattern `(\d+)\+?\s*(?:years?|yrs?)\s+(?:in|with)`. -/
def matchP4 (cs : PyStr) : Option (ℕ × PyStr) :=
  match matchNum cs with
  | none => none
  | some (n, r1) =>
    match kwYears (wsStar (optChar 43 r1)) with
    | none => none
    | some r3 =>
      match wsPlus r3 with
      | none => none
      | some r4 =>
        match lit (pyStr "in") r4 with
        | some r5 => some (n, r5)
        | none =>
          match lit (pyStr "with") r4 with
          | some r5 => some (n, r5)
          | none => none

end ExperienceScorer

/-- Left-to-right non-overlapping scan of `re.findall`, with fuel. -/
def findallGo (m : PyStr → Option (ℕ × PyStr)) : ℕ → PyStr → List ℕ
  | 0, _ => []
  | _ + 1, [] => []
  | fuel + 1, c :: t =>
    match m (c :: t) with
    | some (n, rest) => n :: findallGo m fuel rest
    | none => findallGo m fuel t

/-- All captured numbers of a pattern over a text, leftmost first. -/
def findall (m : PyStr → Option (ℕ × PyStr)) (cs : PyStr) : List ℕ :=
  findallGo m cs.length cs

/-- Python `max` over a list of naturals (0 for the empty list; the
sources only apply it to non-empty lists). -/
def maxNat (l : List ℕ) : ℕ := l.foldr Nat.max 0

namespace ExperienceScorer

/-- The ordered pattern list of `extract_years_from_text`. -/
def experience_patterns : List (PyStr → Option (ℕ × PyStr)) :=
  [matchP1, matchP2, matchP3, matchP4]

/-- The `seniority_levels` dict of `ExperienceScorer.__init__`, in
insertion order, with the (min_years, max_years) ranges. -/
def seniority_levels : List (PyStr × ℕ × ℕ) :=
  [(pyStr "entry-level", 0, 2), (pyStr "junior", 0, 2), (pyStr "mid-level", 2, 5),
   (pyStr "intermediate", 2, 5), (pyStr "senior", 5, 10), (pyStr "lead", 7, 15),
   (pyStr "principal", 10, 20), (pyStr "staff", 8, 15), (pyStr "architect", 10, 20),
   (pyStr "director", 10, 20), (pyStr "manager", 5, 15)]

/-- Seniority fallback of `extract_years_from_text`: the middle
`(min + max) // 2` of the first level found in the text. -/
def seniorityFallback (cs : PyStr) : Option ℕ :=
  match seniority_levels.find? (fun p => pyContains cs p.1) with
  | some p => some ((p.2.1 + p.2.2) / 2)
  | none => none

/-- Source loop of `extract_years_from_text`: return the max over the
matches of the first pattern that has any. -/
def first_pattern_max : List (PyStr → Option (ℕ × PyStr)) → PyStr → Option ℕ
  | [], _ => none
  | p :: rest, low =>
    if findall p low = [] then first_pattern_max rest low
    else some (maxNat (findall p low))

/-- Embedding of `ExperienceScorer.extract_years_from_text`: `None` for
falsy input, otherwise the pattern loop on the lowercased text, then the
seniority fallback, then `None`. -/
def extract_years_from_text (text : PyStr) : Option ℕ :=
  if text = [] then none
  else
    match first_pattern_max experience_patterns (pyLower text) with
    | some n => some n
    | none => seniorityFallback (pyLower text)

end ExperienceScorer

namespace SkillExtractor

/-- Pattern `(\d+)\+?\s*years?\s*(?:of)?\s*experience` of
`SkillExtractor.extract_years_of_experience`. -/
def matchQ1 (cs : PyStr) : Option (ℕ × PyStr) :=
  match matchNum cs with
  | none => none
  | some (n, r1) =>
    match lit (pyStr "year") (wsStar (optChar 43 r1)) with
    | none => none
    | some r3 =>
      let r4 := wsStar (optChar 115 r3)
      match (match lit (pyStr "of") r4 with
             | some r5 => lit (pyStr "experience") (wsStar r5)
             | none => none) with
      | some r6 => some (n, r6)
      | none =>
        match lit (pyStr "experience") (wsStar r4) with
        | some r6 => some (n, r6)
        | none => none

/-- Pattern `experience[:\s]*(\d+)\+?\s*years?`. -/
def matchQ2 (cs : PyStr) : Option (ℕ × PyStr) :=
  match lit (pyStr "experience") cs with
  | none => none
  | some r1 =>
    match matchNum (r1.dropWhile (fun c => c = 58 || isPySpace c)) with
    | none => none
    | some (n, r2) =>
      match lit (pyStr "year") (wsStar (optChar 43 r2)) with
      | none => none
      | some r4 => some (n, optChar 115 r4)

/-- Pattern `(\d+)\+?\s*yrs?\s*(?:of)?\s*experience`. -/
def matchQ3 (cs : PyStr) : Option (ℕ × PyStr) :=
  match matchNum cs with
  | none => none
  | some (n, r1) =>
    match lit (pyStr "yr") (wsStar (optChar 43 r1)) with
    | none => none
    | some r3 =>
      let r4 := wsStar (optChar 115 r3)
      match (match lit (pyStr "of") r4 with
             | some r5 => lit (pyStr "experience") (wsStar r5)
             | none => none) with
      | some r6 => some (n, r6)
      | none =>
        match lit (pyStr "experience") (wsStar r4) with
        | some r6 => some (n, r6)
        | none => none

/-- The ordered pattern list of `extract_years_of_experience`. -/
def skill_patterns : List (PyStr → Option (ℕ × PyStr)) :=
  [matchQ1, matchQ2, matchQ3]

/-- Result dict of `SkillExtractor.extract_years_of_experience`. -/
structure YearsInfo where
  max_years : ℕ
  total_mentions : ℕ
deriving DecidableEq

/-- Embedding of `SkillExtractor.extract_years_of_experience`:
aggregates the matches of all patterns (`years.extend(...)` per
pattern) and returns their max with the mention count, or the
`{0, 0}` dict when nothing matched. -/
def extract_years_of_experience (text : PyStr) : YearsInfo :=
  let years := (skill_patterns.map (fun p => findall p (pyLower text))).join
  if years = [] then { max_years := 0, total_mentions := 0 }
  else { max_years := maxNat years, total_mentions := years.length }

end SkillExtractor

/-- Claim-side definition (spec words, for the refutation of C4): the
maximum N over all matches of all patterns of the extractor, `None`
when no pattern matches. -/
def spec_max_over_all_patterns (text : PyStr) : Option ℕ :=
  let ms := (ExperienceScorer.experience_patterns.map
    (fun p => findall p (pyLower text))).join
  if ms = [] then none else some (maxNat ms)

namespace TextCleaner

-- Embedding of `TextCleaner` (src/src/extraction/text_cleaner.py).
-- Each regex substitution is translated into a scanner over code
-- points; scanners carry a fuel argument equal to the input length
-- (every match consumes at least one character, so the fuel suffices;
-- on exhaustion the remainder is returned unchanged).

/-- Character class of the URL regex
`http[s]?://(?:[a-zA-Z]|[0-9]|[$-_@.&+]|[!*\\(\\),]|(?:%[0-9a-fA-F]{2}))+`:
`[$-_@.&+]` is the range 0x24-0x5F (plus members of it repeated), and
the `%hh` alternative is unreachable because `%` is inside that range
and the hex digits are letters/digits, so the class reduces to the
single-character alternatives. -/
def isUrlChar (n : ℕ) : Bool :=
  isPyAlpha n || isPyDigit n || (36 ≤ n && n ≤ 95) || n = 33 || n = 42 || n = 92 ||
    n = 40 || n = 41 || n = 44

/-- One match attempt of the URL regex at the current position:
`http`, optional `s`, `://`, then a maximal non-empty run of URL
characters.  Returns the rest after the match. -/
def tryUrl (cs : PyStr) : Option PyStr :=
  match lit (pyStr "http") cs with
  | none => none
  | some r1 =>
    match lit (pyStr "://") (optChar 115 r1) with
    | none => none
    | some r3 =>
      if r3.takeWhile (fun n => isUrlChar n) = [] then none
      else some (r3.dropWhile (fun n => isUrlChar n))

/-- The left-to-right scan of `re.sub(url_pattern, '', text)`. -/
def removeUrlsGo : ℕ → PyStr → PyStr
  | 0, cs => cs
  | _ + 1, [] => []
  | fuel + 1, c :: t =>
    match tryUrl (c :: t) with
    | some rest => removeUrlsGo fuel rest
    | none => c :: removeUrlsGo fuel t

/-- Embedding of `TextCleaner._remove_urls`. -/
def remove_urls (cs : PyStr) : PyStr := removeUrlsGo cs.length cs

/-- Regex class `[A-Za-z0-9._%+-]` (email local part). -/
def isLocalChar (n : ℕ) : Bool :=
  isPyAlpha n || isPyDigit n || n = 46 || n = 95 || n = 37 || n = 43 || n = 45

/-- Regex class `[A-Za-z0-9.-]` (email domain part). -/
def isDomChar (n : ℕ) : Bool := isPyAlpha n || isPyDigit n || n = 46 || n = 45

/-- Regex class `[A-Z|a-z]` of the email TLD part — the `|` inside the
class is a literal. -/
def isTldChar (n : ℕ) : Bool := isPyAlpha n || n = 124

/-- Wordness of an optional neighbouring character, for `\b`: the ends
of the string count as non-word. -/
def isWordOpt : Option ℕ → Bool
  | none => false
  | some n => isPyWord n

/-- The `[A-Z|a-z]{2,}\b` tail of the email regex with its
backtracking: starting from the maximal TLD-character run, shrink the
match (length at least 2) until the trailing `\b` holds.  Returns the
rest of the string after the match. -/
def tldShrink (run rest : PyStr) : ℕ → Option PyStr
  | 0 => none
  | l + 1 =>
    if l + 1 < 2 then none
    else
      let lastC := run.getD l 0
      let nextC : Option ℕ := if l + 1 < run.length then some (run.getD (l + 1) 0) else rest.head?
      if isPyWord lastC ≠ isWordOpt nextC then some (run.drop (l + 1) ++ rest)
      else tldShrink run rest l

/-- Try the TLD part from a given position. -/
def tldTry (cs : PyStr) : Option PyStr :=
  tldShrink (cs.takeWhile (fun n => isTldChar n)) (cs.dropWhile (fun n => isTldChar n))
    (cs.takeWhile (fun n => isTldChar n)).length

/-- Backtracking of the greedy `[A-Za-z0-9.-]+\.` prefix of the email
domain: try the rightmost `.` inside the maximal domain run first (the
part before the dot must be non-empty), then the TLD tail after it. -/
def domSearch (r2 dom : PyStr) : ℕ → Option PyStr
  | 0 => none
  | k + 1 =>
    match (if dom.getD (k + 1) 0 = 46 then tldTry (r2.drop (k + 2)) else none) with
    | some rest => some rest
    | none => domSearch r2 dom k

/-- One match attempt of the email regex
`\b[A-Za-z0-9._%+-]+@[A-Za-z0-9.-]+\.[A-Z|a-z]{2,}\b` at the current
position, given the preceding character (for the leading `\b`). -/
def tryEmail (prev : Option ℕ) (cs : PyStr) : Option PyStr :=
  match cs.takeWhile (fun n => isLocalChar n) with
  | [] => none
  | c0 :: _ =>
    if isWordOpt prev = isPyWord c0 then none
    else
      match litChar 64 (cs.dropWhile (fun n => isLocalChar n)) with
      | none => none
      | some r2 =>
        let dom := r2.takeWhile (fun n => isDomChar n)
        if dom = [] then none else domSearch r2 dom (dom.length - 1)

/-- The scan of `re.sub(email_pattern, '', text)`, tracking the
original character preceding the current position (the `\b` context). -/
def removeEmailsGo : ℕ → Option ℕ → PyStr → PyStr
  | 0, _, cs => cs
  | _ + 1, _, [] => []
  | fuel + 1, prev, c :: t =>
    match tryEmail prev (c :: t) with
    | some rest =>
      removeEmailsGo fuel (some ((c :: t).getD ((c :: t).length - rest.length - 1) 0)) rest
    | none => c :: removeEmailsGo fuel (some c) t

/-- Embedding of `TextCleaner._remove_emails`. -/
def remove_emails (cs : PyStr) : PyStr := removeEmailsGo cs.length none cs

/-- The scan of `re.sub(r'\s+', ' ', text)`: every maximal whitespace
run becomes a single plain space. -/
def wsCollapseGo : ℕ → PyStr → PyStr
  | 0, cs => cs
  | _ + 1, [] => []
  | fuel + 1, c :: t =>
    if isPySpace c then 32 :: wsCollapseGo fuel (t.dropWhile (fun n => isPySpace n))
    else c :: wsCollapseGo fuel t

/-- First substitution of `TextCleaner._normalize_whitespace`. -/
def collapse_ws (cs : PyStr) : PyStr := wsCollapseGo cs.length cs

/-- The scan of `re.sub(r'\n+', '\n', text)` (second substitution of
`_normalize_whitespace`; a no-op after the first, which removes every
newline, but embedded faithfully). -/
def nlCollapseGo : ℕ → PyStr → PyStr
  | 0, cs => cs
  | _ + 1, [] => []
  | fuel + 1, c :: t =>
    if c = 10 then 10 :: nlCollapseGo fuel (t.dropWhile (fun n => n == 10))
    else c :: nlCollapseGo fuel t

/-- Second substitution of `_normalize_whitespace`. -/
def collapse_nl (cs : PyStr) : PyStr := nlCollapseGo cs.length cs

/-- The distinct code points of the decorative-bullet class
`[‚Ä¢‚óè‚óã‚ñÝ‚ñ°‚ñ™‚ñ´]` as the source file encodes it. -/
def mojibake : List ℕ := [8218, 196, 162, 243, 232, 227, 241, 221, 176, 8482, 180]

/-- Complement class of `[^\w\s\n.,\-+#()]`: the characters the second
substitution of `_remove_special_chars` keeps. -/
def isKeptChar (n : ℕ) : Bool :=
  isPyWord n || isPySpace n || n = 10 || n = 46 || n = 44 || n = 45 || n = 43 ||
    n = 35 || n = 40 || n = 41

/-- Embedding of `TextCleaner._remove_special_chars`: delete the
decorative-bullet characters, then replace every character outside the
kept class with a space. -/
def remove_special_chars (cs : PyStr) : PyStr :=
  (cs.filter (fun n => !mojibake.contains n)).map (fun n => if isKeptChar n then n else 32)

/-- Bullet characters of `_normalize_bullets`: `-` plus the decorative
marks. -/
def bulletChars : List ℕ := 45 :: mojibake

/-- One match attempt of `^[\s]*[-…]\s*` at a line start. -/
def tryBullet (cs : PyStr) : Option PyStr :=
  match cs.dropWhile (fun n => isPySpace n) with
  | [] => none
  | b :: t =>
    if bulletChars.contains b then some (t.dropWhile (fun n => isPySpace n)) else none

/-- The MULTILINE scan of `_normalize_bullets`: the pattern is anchored
by `^`, so a match is attempted only at the string start and right
after a newline of the original text (tracked through the flag, using
the original preceding character after a removal). -/
def bulletsGo : ℕ → Bool → PyStr → PyStr
  | 0, _, cs => cs
  | _ + 1, _, [] => []
  | fuel + 1, atStart, c :: t =>
    if atStart then
      match tryBullet (c :: t) with
      | some rest =>
        bulletsGo fuel ((c :: t).getD ((c :: t).length - rest.length - 1) 0 == 10) rest
      | none => c :: bulletsGo fuel (c == 10) t
    else c :: bulletsGo fuel (c == 10) t

/-- Embedding of `TextCleaner._normalize_bullets`. -/
def normalize_bullets (cs : PyStr) : PyStr := bulletsGo cs.length true cs

/-- The fixed stopword set of `TextCleaner.__init__`. -/
def stopwords : List PyStr :=
  [pyStr "the", pyStr "a", pyStr "an", pyStr "and", pyStr "or", pyStr "but",
   pyStr "in", pyStr "on", pyStr "at", pyStr "to", pyStr "for", pyStr "of",
   pyStr "with", pyStr "by", pyStr "from", pyStr "as", pyStr "is", pyStr "was",
   pyStr "are", pyStr "were", pyStr "been", pyStr "be", pyStr "have", pyStr "has",
   pyStr "had", pyStr "do", pyStr "does", pyStr "did", pyStr "will", pyStr "would",
   pyStr "could", pyStr "should", pyStr "may", pyStr "might", pyStr "must",
   pyStr "can", pyStr "this", pyStr "that", pyStr "these", pyStr "those",
   pyStr "i", pyStr "you", pyStr "he", pyStr "she", pyStr "it", pyStr "we",
   pyStr "they"]

/-- Python `text.split()`: split on whitespace runs, dropping empties. -/
def splitWsGo : ℕ → PyStr → List PyStr
  | 0, _ => []
  | _ + 1, [] => []
  | fuel + 1, c :: t =>
    if isPySpace c then splitWsGo fuel t
    else (c :: t.takeWhile (fun n => !isPySpace n)) :: splitWsGo fuel (t.dropWhile (fun n => !isPySpace n))

/-- Python `' '.join(words)`-style join with a separator. -/
def pyJoin (sep : PyStr) : List PyStr → PyStr
  | [] => []
  | [w] => w
  | w :: ws => w ++ sep ++ pyJoin sep ws

/-- Embedding of `TextCleaner._remove_stopwords_from_text`. -/
def remove_stopwords_from_text (cs : PyStr) : PyStr :=
  pyJoin (pyStr " ")
    ((splitWsGo cs.length cs).filter (fun w => !stopwords.contains (pyLower w)))

/-- Embedding of `TextCleaner.clean` with the constructor flags
(`lowercase`, `remove_stopwords`; the defaults are `true`, `false`).
Empty input returns the empty string; otherwise the fixed pipeline:
URLs, emails, whitespace, special characters, bullets, optional
lowercase, optional stopword removal, final strip. -/
def clean (lowercase remove_stopwords : Bool) (text : PyStr) : PyStr :=
  if text = [] then []
  else
    let t1 := remove_urls text
    let t2 := remove_emails t1
    let t3 := collapse_nl (collapse_ws t2)
    let t4 := remove_special_chars t3
    let t5 := normalize_bullets t4
    let t6 := if lowercase then pyLower t5 else t5
    let t7 := if remove_stopwords then remove_stopwords_from_text t6 else t6
    pyStrip t7

/-- Decidable test for two adjacent whitespace characters. -/
def hasDoubleSpaceB : PyStr → Bool
  | [] => false
  | [_] => false
  | a :: b :: t => (isPySpace a && isPySpace b) || hasDoubleSpaceB (b :: t)

/-- Decidable test for a leading bullet character. -/
def head_is_bullet : PyStr → Bool
  | [] => false
  | c :: _ => bulletChars.contains c

end TextCleaner

/-- Decimal digits of a natural number, as code points. -/
def natDigits (n : ℕ) : PyStr := (Nat.toDigits 10 n).map Char.toNat

/-- Python `f"{x:.1f}"` on the exact value of `x`: round half-to-even
to one decimal and print (negative zero prints without the sign in
this model; the pipeline only formats non-negative scores). -/
def renderFix1 (x : ℚ) : PyStr :=
  let r := roundHalfEven (x * 10)
  if r < 0 then
    45 :: natDigits ((-r).toNat / 10) ++ [46] ++ natDigits ((-r).toNat % 10)
  else
    natDigits (r.toNat / 10) ++ [46] ++ natDigits (r.toNat % 10)

namespace SummaryGenerator

-- Embedding of `SummaryGenerator.generate_report`
-- (src/src/scoring/summary_generator.py).  The `datetime.now()`
-- call is modelled as an explicit clock input `now`; everything else
-- in the method is pure.  The experience-analysis dict is modelled by
-- the three fields `generate_report` reads (`status`, `message`,
-- `recommendation`); a falsy (empty/None) dict is `none`.

/-- The fields of the experience-gap analysis dict consumed by the
report generator. -/
structure ExpGapAnalysis where
  status : PyStr
  message : PyStr
  recommendation : PyStr

/-- Report `metadata` section. -/
structure Metadata where
  generated_at : PyStr
  job_title : PyStr
  analyzer_version : PyStr

/-- Report score breakdown. -/
structure Breakdown where
  skill_score : ℚ
  semantic_score : ℚ
  experience_score : ℚ
  qualification_score : ℚ

/-- Report `overall_score` section. -/
structure OverallScore where
  final_score : ℚ
  rating : PyStr
  breakdown : Breakdown

/-- Report `skills_analysis` section. -/
structure SkillsAnalysis where
  matched_exact : List PyStr
  matched_fuzzy : List PyStr
  matched_semantic : List PyStr
  missing : List PyStr
  extra : List PyStr
  total_matched : ℕ
  total_required : ℕ
  match_rate : ℚ

/-- Report `semantic_analysis` section. -/
structure SemanticAnalysis where
  overall_similarity : ℚ
  interpretation : PyStr

/-- The report dictionary returned by `generate_report`. -/
structure Report where
  metadata : Metadata
  contact_info : List (PyStr × PyStr)
  overall_score : OverallScore
  skills_analysis : SkillsAnalysis
  semantic_analysis : SemanticAnalysis
  experience_analysis : Option ExpGapAnalysis
  strengths : List PyStr
  recommendations : List PyStr
  summary : PyStr

/-- Embedding of `SummaryGenerator._calculate_rating`. -/
def calculate_rating (score : ℚ) : PyStr :=
  if 90 ≤ score then pyStr "Excellent Match"
  else if 80 ≤ score then pyStr "Very Good Match"
  else if 70 ≤ score then pyStr "Good Match"
  else if 60 ≤ score then pyStr "Fair Match"
  else if 50 ≤ score then pyStr "Moderate Match"
  else pyStr "Weak Match"

/-- Embedding of `SummaryGenerator._calculate_match_rate`. -/
def calculate_match_rate (matched total : ℕ) : ℚ :=
  if total = 0 then 0
  else pyRound 1 (((matched : ℚ) / (total : ℚ)) * 100)

/-- Embedding of `SummaryGenerator._interpret_semantic_score`. -/
def interpret_semantic_score (score : ℚ) : PyStr :=
  if 4 / 5 ≤ score then pyStr "Very high semantic alignment with job requirements"
  else if 7 / 10 ≤ score then pyStr "High semantic alignment with job requirements"
  else if 3 / 5 ≤ score then pyStr "Moderate semantic alignment with job requirements"
  else if 1 / 2 ≤ score then pyStr "Fair semantic alignment with job requirements"
  else pyStr "Low semantic alignment with job requirements"

/-- Embedding of `SummaryGenerator._generate_recommendations`: the
fixed rule table, appended in source order. -/
def generate_recommendations (final_score : ℚ) (missing_skills : List PyStr)
    (experience_analysis : Option ExpGapAnalysis)
    (matched_exact matched_fuzzy : List PyStr) : List PyStr :=
  (if final_score < 70 then
    [pyStr "Consider acquiring key missing skills through courses or projects"] else [])
  ++ (if missing_skills ≠ [] then
      (if (missing_skills.take 5).length ≤ 3 then
        [pyStr "Priority skills to acquire: " ++ TextCleaner.pyJoin (pyStr ", ") (missing_skills.take 5)]
      else
        [pyStr "Focus on top missing skills: " ++ TextCleaner.pyJoin (pyStr ", ") ((missing_skills.take 5).take 3)])
    else [])
  ++ (match experience_analysis with
      | some ea =>
        if ea.status = pyStr "moderate_gap" ∨ ea.status = pyStr "significant_gap" ∨
            ea.status = pyStr "critical_gap" then [ea.recommendation] else []
      | none => [])
  ++ (if matched_exact ≠ [] ∨ matched_fuzzy ≠ [] then
      [pyStr "Highlight your relevant skills and projects more prominently in your resume"] else [])
  ++ [if 80 ≤ final_score then
        pyStr "Excellent match! Tailor your resume to emphasize relevant experience and projects"
      else if 70 ≤ final_score then
        pyStr "Good match overall. Consider adding specific examples of projects using required skills"
      else if 60 ≤ final_score then
        pyStr "Strengthen your profile by gaining hands-on experience with missing skills"
      else
        pyStr "Significant skill gaps identified. Consider targeted learning or look for roles that better match your current skill set"]

/-- Embedding of `SummaryGenerator._identify_strengths`. -/
def identify_strengths (skill_score semantic_score experience_score : ℚ)
    (matched_exact matched_fuzzy extra_skills : List PyStr) : List PyStr :=
  (if 80 ≤ skill_score then
    [pyStr "Strong skill match with " ++ natDigits matched_exact.length ++
      pyStr " exact and " ++ natDigits matched_fuzzy.length ++ pyStr " similar skill matches"]
   else [])
  ++ (if 80 ≤ semantic_score then
      [pyStr "High semantic alignment with job requirements"] else [])
  ++ (if 90 ≤ experience_score then
      [pyStr "Experience level matches or exceeds requirements"] else [])
  ++ (if ((extra_skills.filter (fun s => 3 < s.length)).take 5) ≠ [] then
      [pyStr "Additional relevant skills: " ++
        TextCleaner.pyJoin (pyStr ", ") (((extra_skills.filter (fun s => 3 < s.length)).take 5).take 3)]
    else [])
  ++ (if matched_exact ≠ [] then
      [pyStr "Proficient in key required skills: " ++
        TextCleaner.pyJoin (pyStr ", ") ((matched_exact.take 5).take 3)]
    else [])

/-- Embedding of `SummaryGenerator._generate_summary`. -/
def generate_summary (final_score : ℚ) (rating : PyStr)
    (matched_exact matched_fuzzy missing_skills : List PyStr)
    (experience_analysis : Option ExpGapAnalysis) : PyStr :=
  TextCleaner.pyJoin (pyStr " | ")
    ([pyStr "Overall Assessment: " ++ rating ++ pyStr " (" ++ renderFix1 final_score ++
        pyStr "/100)"]
    ++ [pyStr "Skills: " ++ natDigits (matched_exact.length + matched_fuzzy.length) ++
        pyStr " matched (" ++ natDigits matched_exact.length ++ pyStr " exact, " ++
        natDigits matched_fuzzy.length ++ pyStr " similar), " ++
        natDigits missing_skills.length ++ pyStr " missing"]
    ++ (match experience_analysis with
        | some ea => if ea.message ≠ [] then [pyStr "Experience: " ++ ea.message] else []
        | none => [])
    ++ [if 80 ≤ final_score then pyStr "Recommendation: Strong candidate. Proceed with application."
        else if 70 ≤ final_score then
          pyStr "Recommendation: Good candidate. Consider applying with tailored resume."
        else if 60 ≤ final_score then
          pyStr "Recommendation: Fair match. Consider skill development before applying."
        else
          pyStr "Recommendation: Address significant skill gaps or consider alternative positions."])

/-- Embedding of `SummaryGenerator.generate_report`.  `now` is the
value `datetime.now().isoformat()` reads from the system clock; every
other field of the report is computed from the arguments alone.
`resume_text` and `jd_text` are accepted but (as in the source) never
used in the output. -/
def generate_report (now : PyStr) (final_score skill_score semantic_score experience_score
      qualification_score : ℚ)
    (matched_skills_exact matched_skills_fuzzy matched_skills_semantic missing_skills
      extra_skills : List PyStr)
    (semantic_similarity : ℚ) (experience_analysis : Option ExpGapAnalysis)
    (resume_text jd_text : PyStr) (job_title : Option PyStr)
    (contact_info : Option (List (PyStr × PyStr))) : Report :=
  { metadata :=
      { generated_at := now
        job_title :=
          match job_title with
          | none => pyStr "Not specified"
          | some t => if t = [] then pyStr "Not specified" else t
        analyzer_version := pyStr "2.0.0" }
    contact_info := contact_info.getD []
    overall_score :=
      { final_score := pyRound 1 final_score
        rating := calculate_rating final_score
        breakdown :=
          { skill_score := pyRound 1 skill_score
            semantic_score := pyRound 1 semantic_score
            experience_score := pyRound 1 experience_score
            qualification_score := pyRound 1 qualification_score } }
    skills_analysis :=
      { matched_exact := matched_skills_exact
        matched_fuzzy := matched_skills_fuzzy
        matched_semantic := matched_skills_semantic
        missing := missing_skills
        extra := extra_skills
        total_matched := matched_skills_exact.length + matched_skills_fuzzy.length +
          matched_skills_semantic.length
        total_required := matched_skills_exact.length + matched_skills_fuzzy.length +
          matched_skills_semantic.length + missing_skills.length
        match_rate := calculate_match_rate
          (matched_skills_exact.length + matched_skills_fuzzy.length +
            matched_skills_semantic.length)
          (matched_skills_exact.length + matched_skills_fuzzy.length +
            matched_skills_semantic.length + missing_skills.length) }
    semantic_analysis :=
      { overall_similarity := pyRound 3 semantic_similarity
        interpretation := interpret_semantic_score semantic_similarity }
    experience_analysis := experience_analysis
    strengths := identify_strengths skill_score semantic_score experience_score
      matched_skills_exact matched_skills_fuzzy extra_skills
    recommendations := generate_recommendations final_score missing_skills
      experience_analysis matched_skills_exact matched_skills_fuzzy
    summary := generate_summary final_score (calculate_rating final_score)
      matched_skills_exact matched_skills_fuzzy missing_skills experience_analysis }

end SummaryGenerator

-- ===================== theorems =====================

theorem roundHalfEven_intCast (n : ℤ) : roundHalfEven (n : ℚ) = n := by
  unfold roundHalfEven
  rw [Int.floor_intCast]
  norm_num

theorem pyRound_one_intCast (n : ℤ) : pyRound 1 (n : ℚ) = n := by
  unfold pyRound
  have h : ((n : ℚ)) * 10 ^ 1 = ((10 * n : ℤ) : ℚ) := by push_cast; ring
  rw [h, roundHalfEven_intCast]
  push_cast
  ring

theorem roundHalfEven_le_of_le {x : ℚ} {B : ℤ} (h : x ≤ B) : roundHalfEven x ≤ B := by
  unfold roundHalfEven
  have hfl : ⌊x⌋ ≤ B := by
    have := Int.floor_le_floor h
    rwa [Int.floor_intCast] at this
  have hfr : (⌊x⌋ : ℚ) ≤ x := Int.floor_le x
  rcases lt_or_eq_of_le hfl with hlt | heq
  · split_ifs <;> omega
  · have hBx : x ≤ (⌊x⌋ : ℚ) := by
      rw [heq]
      exact_mod_cast h
    have hc : x - ⌊x⌋ < 1 / 2 := by linarith
    rw [if_pos hc]
    omega

theorem roundHalfEven_nonneg {x : ℚ} (h : 0 ≤ x) : 0 ≤ roundHalfEven x := by
  unfold roundHalfEven
  have : (0 : ℤ) ≤ ⌊x⌋ := Int.floor_nonneg.mpr h
  split_ifs <;> omega

theorem roundHalfEven_mono {x y : ℚ} (h : x ≤ y) : roundHalfEven x ≤ roundHalfEven y := by
  unfold roundHalfEven
  have hf : ⌊x⌋ ≤ ⌊y⌋ := Int.floor_le_floor h
  rcases lt_or_eq_of_le hf with hlt | heq
  · split_ifs <;> omega
  · rw [← heq]
    have hfr : x - ⌊x⌋ ≤ y - ⌊x⌋ := by linarith
    split_ifs <;> first | omega | linarith

theorem pyRound_one_mono {x y : ℚ} (h : x ≤ y) : pyRound 1 x ≤ pyRound 1 y := by
  unfold pyRound
  have h10 : x * 10 ^ 1 ≤ y * 10 ^ 1 := by
    have : (0 : ℚ) ≤ 10 ^ 1 := by norm_num
    exact mul_le_mul_of_nonneg_right h this
  have hr := roundHalfEven_mono h10
  have hc : ((roundHalfEven (x * 10 ^ 1) : ℤ) : ℚ) ≤ ((roundHalfEven (y * 10 ^ 1) : ℤ) : ℚ) := by
    exact_mod_cast hr
  rw [div_le_div_iff (by norm_num : (0:ℚ) < 10 ^ 1) (by norm_num : (0:ℚ) < 10 ^ 1)]
  nlinarith [hc]

theorem pyRound_one_bounds {x : ℚ} (h0 : 0 ≤ x) (h1 : x ≤ 100) :
    0 ≤ pyRound 1 x ∧ pyRound 1 x ≤ 100 := by
  unfold pyRound
  have hx0 : (0 : ℚ) ≤ x * 10 ^ 1 := by positivity
  have hx1 : x * 10 ^ 1 ≤ ((1000 : ℤ) : ℚ) := by push_cast; linarith
  have hlow := roundHalfEven_nonneg hx0
  have hhigh := roundHalfEven_le_of_le hx1
  constructor
  · have : ((0 : ℤ) : ℚ) ≤ (roundHalfEven (x * 10 ^ 1) : ℚ) := by exact_mod_cast hlow
    have hpos : (0 : ℚ) < 10 ^ 1 := by norm_num
    positivity
  · have hcast : ((roundHalfEven (x * 10 ^ 1) : ℤ) : ℚ) ≤ 1000 := by exact_mod_cast hhigh
    rw [div_le_iff (by norm_num : (0:ℚ) < 10 ^ 1)]
    linarith

theorem exp_score_shortfall_eq (c r : ℚ) (hr : 0 < r) (hcr : c < r) :
    ExperienceScorer.calculate_experience_score (some c) (some r) =
      (if 4 / 5 ≤ c / r then 80 + (c / r - 4 / 5) * 50
       else if 3 / 5 ≤ c / r then 60 + (c / r - 3 / 5) * 100
       else if 2 / 5 ≤ c / r then 40 + (c / r - 2 / 5) * 100
       else (c / r) * 100) := by
  simp only [ExperienceScorer.calculate_experience_score]
  rw [if_neg hr.ne', if_neg (not_le.mpr hcr)]

/-- C2 (amended): `ExperienceScorer.calculate_experience_score` returns the
neutral 70 when the requirement is `None` or 0, and 50 when the candidate
years are unknown (and the requirement is a nonzero number); for a
shortfall with ratio t = candidate/required, the score is 80 + (t-0.8)*50
∈ [80,90) for t ∈ [0.8,1), 60 + (t-0.6)*100 ∈ [60,80) for t ∈ [0.6,0.8),
40 + (t-0.4)*100 ∈ [40,60) for t ∈ [0.4,0.6), and t*100 ∈ [0,40)
proportionally for t ∈ [0,0.4) — not the [70,85] and [50,70] middle bands
the claim states. -/
theorem C2_experience_score_policy :
    (∀ c : Option ℚ, ExperienceScorer.calculate_experience_score c none = 70) ∧
    (∀ c : Option ℚ, ExperienceScorer.calculate_experience_score c (some 0) = 70) ∧
    (∀ r : ℚ, r ≠ 0 → ExperienceScorer.calculate_experience_score none (some r) = 50) ∧
    (∀ c r : ℚ, 0 ≤ c → 0 < r → c < r →
      (4 / 5 ≤ c / r →
        80 ≤ ExperienceScorer.calculate_experience_score (some c) (some r) ∧
        ExperienceScorer.calculate_experience_score (some c) (some r) < 90) ∧
      (3 / 5 ≤ c / r → c / r < 4 / 5 →
        60 ≤ ExperienceScorer.calculate_experience_score (some c) (some r) ∧
        ExperienceScorer.calculate_experience_score (some c) (some r) < 80) ∧
      (2 / 5 ≤ c / r → c / r < 3 / 5 →
        40 ≤ ExperienceScorer.calculate_experience_score (some c) (some r) ∧
        ExperienceScorer.calculate_experience_score (some c) (some r) < 60) ∧
      (c / r < 2 / 5 →
        ExperienceScorer.calculate_experience_score (some c) (some r) = (c / r) * 100 ∧
        0 ≤ ExperienceScorer.calculate_experience_score (some c) (some r) ∧
        ExperienceScorer.calculate_experience_score (some c) (some r) < 40)) := by
  refine ⟨fun c => rfl, ?_, ?_, ?_⟩
  · intro c
    simp [ExperienceScorer.calculate_experience_score]
  · intro r hr
    simp [ExperienceScorer.calculate_experience_score, hr]
  · intro c r hc hr hcr
    have ht1 : c / r < 1 := (div_lt_one hr).mpr hcr
    have ht0 : 0 ≤ c / r := div_nonneg hc hr.le
    rw [exp_score_shortfall_eq c r hr hcr]
    refine ⟨?_, ?_, ?_, ?_⟩
    · intro h45
      rw [if_pos h45]
      constructor <;> nlinarith
    · intro h35 h45
      rw [if_neg (not_le.mpr h45), if_pos h35]
      constructor <;> nlinarith
    · intro h25 h35
      rw [if_neg (not_le.mpr (h35.trans_le (by norm_num))), if_neg (not_le.mpr h35), if_pos h25]
      constructor <;> nlinarith
    · intro h25
      have h35 : ¬ (3 / 5 ≤ c / r) := not_le.mpr (h25.trans_le (by norm_num))
      have h45 : ¬ (4 / 5 ≤ c / r) := not_le.mpr (h25.trans_le (by norm_num))
      rw [if_neg h45, if_neg h35, if_neg (not_le.mpr h25)]
      refine ⟨rfl, ?_, ?_⟩ <;> nlinarith

/-- C2 witness: candidate 2 of required 5 (ratio 0.4) scores in [40,60). -/
theorem C2_experience_score_policy_witness :
    40 ≤ ExperienceScorer.calculate_experience_score (some 2) (some 5) ∧
    ExperienceScorer.calculate_experience_score (some 2) (some 5) < 60 :=
  (C2_experience_score_policy.2.2.2 2 5 (by norm_num) (by norm_num) (by norm_num)).2.2.1
    (by norm_num) (by norm_num)

/-- C2 counterexample: at candidate 3, required 5 (ratio 0.6) the code
returns 60, not a value in the claimed band [70,85]. -/
theorem C2_experience_score_policy_counterexample :
    ¬ (70 ≤ ExperienceScorer.calculate_experience_score (some 3) (some 5) ∧
       ExperienceScorer.calculate_experience_score (some 3) (some 5) ≤ 85) := by
  have h : ExperienceScorer.calculate_experience_score (some 3) (some 5) = 60 := by
    rw [exp_score_shortfall_eq 3 5 (by norm_num) (by norm_num)]
    norm_num
  rw [h]
  norm_num

/-- C3: the `MatchScorer` experience scorer gives 100 for a candidate
exactly meeting a 5-year requirement, 50 when the candidate years are
unknown, and 100 when the requirement is 0. -/
theorem C3_experience_score_values :
    MatchScorer.calculate_experience_score (some 5) (some 5) = 100 ∧
    MatchScorer.calculate_experience_score none (some 5) = 50 ∧
    MatchScorer.calculate_experience_score (some 5) (some 0) = 100 := by
  have h100 : pyRound 1 ((100 : ℤ) : ℚ) = ((100 : ℤ) : ℚ) := pyRound_one_intCast 100
  norm_num at h100
  refine ⟨?_, rfl, ?_⟩
  · show MatchScorer.calculate_experience_score (some 5) (some 5) = 100
    simp only [MatchScorer.calculate_experience_score]
    norm_num
    exact h100
  · simp [MatchScorer.calculate_experience_score]

/-- Unfolding of `calculate_final_score` at explicit scores and the
default weights. -/
theorem final_score_default_eq (a b c d : ℚ) :
    MatchScorer.calculate_final_score (some a) (some b) (some c) (some d) none =
      pyRound 1 (max 0 (min (a * (2 / 5) + b * (3 / 10) + c * (1 / 5) + d * (1 / 10)) 100)) :=
  rfl

/-- C5: with the default weights, `calculate_final_score` is monotone
non-decreasing in each sub-score separately, and for all inputs and any
weights its value lies in [0,100] (the weighted sum is clamped before
rounding). -/
theorem C5_final_score_monotone_bounded :
    (∀ a b s2 s3 s4 : ℚ, a ≤ b →
      MatchScorer.calculate_final_score (some a) (some s2) (some s3) (some s4) none ≤
      MatchScorer.calculate_final_score (some b) (some s2) (some s3) (some s4) none) ∧
    (∀ a b s1 s3 s4 : ℚ, a ≤ b →
      MatchScorer.calculate_final_score (some s1) (some a) (some s3) (some s4) none ≤
      MatchScorer.calculate_final_score (some s1) (some b) (some s3) (some s4) none) ∧
    (∀ a b s1 s2 s4 : ℚ, a ≤ b →
      MatchScorer.calculate_final_score (some s1) (some s2) (some a) (some s4) none ≤
      MatchScorer.calculate_final_score (some s1) (some s2) (some b) (some s4) none) ∧
    (∀ a b s1 s2 s3 : ℚ, a ≤ b →
      MatchScorer.calculate_final_score (some s1) (some s2) (some s3) (some a) none ≤
      MatchScorer.calculate_final_score (some s1) (some s2) (some s3) (some b) none) ∧
    (∀ s1 s2 s3 s4 : Option ℚ, ∀ w : Option (List (PyStr × ℚ)),
      0 ≤ MatchScorer.calculate_final_score s1 s2 s3 s4 w ∧
      MatchScorer.calculate_final_score s1 s2 s3 s4 w ≤ 100) := by
  have clamp_bounds : ∀ z : ℚ, 0 ≤ max 0 (min z 100) ∧ max 0 (min z 100) ≤ 100 := by
    intro z
    refine ⟨le_max_left _ _, max_le (by norm_num) (min_le_right _ _)⟩
  have mono_of_sum : ∀ x y : ℚ, x ≤ y →
      pyRound 1 (max 0 (min x 100)) ≤ pyRound 1 (max 0 (min y 100)) := by
    intro x y hxy
    exact pyRound_one_mono (max_le_max le_rfl (min_le_min hxy le_rfl))
  refine ⟨?_, ?_, ?_, ?_, ?_⟩
  · intro a b s2 s3 s4 h
    rw [final_score_default_eq, final_score_default_eq]
    exact mono_of_sum _ _ (by nlinarith)
  · intro a b s1 s3 s4 h
    rw [final_score_default_eq, final_score_default_eq]
    exact mono_of_sum _ _ (by nlinarith)
  · intro a b s1 s2 s4 h
    rw [final_score_default_eq, final_score_default_eq]
    exact mono_of_sum _ _ (by nlinarith)
  · intro a b s1 s2 s3 h
    rw [final_score_default_eq, final_score_default_eq]
    exact mono_of_sum _ _ (by nlinarith)
  · intro s1 s2 s3 s4 w
    show 0 ≤ MatchScorer.calculate_final_score s1 s2 s3 s4 w ∧ _
    unfold MatchScorer.calculate_final_score
    exact pyRound_one_bounds (clamp_bounds _).1 (clamp_bounds _).2

/-- C5 witness: raising the skill sub-score from 50 to 55 does not lower
the final score, and a concrete final score is within bounds. -/
theorem C5_final_score_monotone_bounded_witness :
    MatchScorer.calculate_final_score (some 50) (some 60) (some 70) (some 80) none ≤
    MatchScorer.calculate_final_score (some 55) (some 60) (some 70) (some 80) none :=
  C5_final_score_monotone_bounded.1 50 55 60 70 80 (by norm_num)

/-- C6: a perfect exact match scores 100 for any positive requirement
count, the vacuous requirement scores 100, and for a positive
requirement count the score is exactly the capped
(exact + 0.8 * fuzzy) / required rate scaled to 100 and rounded to one
decimal. -/
theorem C6_skill_match_score :
    (∀ n : ℕ, 0 < n → MatchScorer.calculate_skill_match_score n n 0 = 100) ∧
    MatchScorer.calculate_skill_match_score 0 0 0 = 100 ∧
    (∀ e r f : ℕ, 0 < r → MatchScorer.calculate_skill_match_score e r f =
      pyRound 1 (min (((e : ℚ) + (f : ℚ) * (4 / 5)) / (r : ℚ)) 1 * 100)) := by
  have h100 : pyRound 1 ((100 : ℤ) : ℚ) = ((100 : ℤ) : ℚ) := pyRound_one_intCast 100
  norm_num at h100
  refine ⟨?_, rfl, ?_⟩
  · intro n hn
    have hne : (n : ℚ) ≠ 0 := Nat.cast_ne_zero.mpr hn.ne'
    simp only [MatchScorer.calculate_skill_match_score, if_neg hn.ne']
    rw [Nat.cast_zero, zero_mul, add_zero, div_self hne, min_self, one_mul]
    exact h100
  · intro e r f hr
    simp only [MatchScorer.calculate_skill_match_score, if_neg hr.ne']

/-- C6 witness: three of three exact matches score 100. -/
theorem C6_skill_match_score_witness :
    MatchScorer.calculate_skill_match_score 3 3 0 = 100 :=
  C6_skill_match_score.1 3 (by norm_num)

/-- Sum of the 0.995 weight dict. -/
theorem weights_0995_sum : MatchScorer.weights_sum weights_0995 = 199 / 200 := by
  simp [MatchScorer.weights_sum, weights_0995]
  norm_num

/-- C8 (amended): `set_weights` raises (and leaves the stored weights
unchanged) exactly when the sum is more than 0.01 away from 1.0 — sums
inside that tolerance, 1.0 included or not, are accepted and stored —
and `calculate_final_score` applies a weight dict as given: halving all
default weights halves the all-100 score to 50 instead of renormalizing
back to 100. -/
theorem C8_weight_validation :
    (∀ stored w : List (PyStr × ℚ), 1 / 100 < |MatchScorer.weights_sum w - 1| →
      MatchScorer.set_weights stored w = (stored, true)) ∧
    (∀ stored w : List (PyStr × ℚ), |MatchScorer.weights_sum w - 1| ≤ 1 / 100 →
      MatchScorer.set_weights stored w = (w, false)) ∧
    MatchScorer.calculate_final_score (some 100) (some 100) (some 100) (some 100)
      (some half_weights) = 50 := by
  refine ⟨?_, ?_, ?_⟩
  · intro stored w h
    unfold MatchScorer.set_weights
    rw [if_pos h]
  · intro stored w h
    unfold MatchScorer.set_weights
    rw [if_neg (not_lt.mpr h)]
  · have h50 : pyRound 1 ((50 : ℤ) : ℚ) = ((50 : ℤ) : ℚ) := pyRound_one_intCast 50
    norm_num at h50
    show pyRound 1 (max 0 (min (100 * (1/5) + 100 * (3/20) + 100 * (1/10) + 100 * (1/20)) 100)) = 50
    norm_num
    exact h50

/-- C8 witness: a weight dict summing to 2 is rejected and the stored
default weights are kept. -/
theorem C8_weight_validation_witness :
    MatchScorer.set_weights MatchScorer.default_weights [(pyStr "skills", 2)] =
      (MatchScorer.default_weights, true) :=
  C8_weight_validation.1 MatchScorer.default_weights [(pyStr "skills", 2)]
    (by simp [MatchScorer.weights_sum]; norm_num)

/-- C8 counterexample: the dict with weights 0.4/0.3/0.2/0.095 sums to
0.995 ≠ 1.0, yet `set_weights` accepts and stores it without raising. -/
theorem C8_weight_validation_counterexample :
    MatchScorer.set_weights MatchScorer.default_weights weights_0995 = (weights_0995, false) ∧
    MatchScorer.weights_sum weights_0995 ≠ 1 := by
  constructor
  · have h : ¬ (1 / 100 < |MatchScorer.weights_sum weights_0995 - 1|) := by
      rw [weights_0995_sum,
        show (199 : ℚ) / 200 - 1 = -(1 / 200) by norm_num, abs_neg,
        abs_of_pos (by norm_num : (0 : ℚ) < 1 / 200)]
      norm_num
    unfold MatchScorer.set_weights
    rw [if_neg h]
  · rw [weights_0995_sum]
    norm_num

theorem fuzzy_pass_fst_subset (fuzz : PyStr → PyStr → ℕ) (thr : ℕ) :
    ∀ (reqs pool : List PyStr) (s : PyStr),
      s ∈ (SimilarityMatcher.fuzzy_pass fuzz thr reqs pool).1 → s ∈ reqs := by
  intro reqs
  induction reqs with
  | nil =>
    intro pool s h
    simp [SimilarityMatcher.fuzzy_pass] at h
  | cons req rest ih =>
    intro pool s h
    cases hb : SimilarityMatcher.best_fuzzy fuzz thr req pool with
    | none =>
      have he : (SimilarityMatcher.fuzzy_pass fuzz thr (req :: rest) pool).1 =
          (SimilarityMatcher.fuzzy_pass fuzz thr rest pool).1 := by
        simp [SimilarityMatcher.fuzzy_pass, hb]
      rw [he] at h
      exact List.mem_cons_of_mem _ (ih pool s h)
    | some p =>
      obtain ⟨b, bs⟩ := p
      have he : (SimilarityMatcher.fuzzy_pass fuzz thr (req :: rest) pool).1 =
          req :: (SimilarityMatcher.fuzzy_pass fuzz thr rest (pool.erase b)).1 := by
        simp [SimilarityMatcher.fuzzy_pass, hb]
      rw [he] at h
      rcases List.mem_cons.mp h with h1 | h2
      · exact h1 ▸ List.mem_cons_self _ _
      · exact List.mem_cons_of_mem _ (ih (pool.erase b) s h2)

theorem match_skills_exact_eq (fuzz : PyStr → PyStr → ℕ) (a b : List PyStr) (t : ℕ) :
    (SimilarityMatcher.match_skills fuzz a b t).matched_exact =
      SimilarityMatcher.matched_exact_of a b := rfl

theorem match_skills_fuzzy_eq (fuzz : PyStr → PyStr → ℕ) (a b : List PyStr) (t : ℕ) :
    (SimilarityMatcher.match_skills fuzz a b t).matched_fuzzy =
      SimilarityMatcher.matched_fuzzy_of fuzz t a b := rfl

theorem match_skills_missing_eq (fuzz : PyStr → PyStr → ℕ) (a b : List PyStr) (t : ℕ) :
    (SimilarityMatcher.match_skills fuzz a b t).missing =
      SimilarityMatcher.missing_of fuzz t a b := rfl

theorem mem_matched_exact_iff (a b : List PyStr) (s : PyStr) :
    s ∈ SimilarityMatcher.matched_exact_of a b ↔
      s ∈ SimilarityMatcher.skill_set a ∧ s ∈ SimilarityMatcher.skill_set b := by
  simp [SimilarityMatcher.matched_exact_of, List.mem_filter]

theorem mem_unmatched_required_iff (a b : List PyStr) (s : PyStr) :
    s ∈ SimilarityMatcher.unmatched_required_of a b ↔
      s ∈ SimilarityMatcher.skill_set b ∧ s ∉ SimilarityMatcher.matched_exact_of a b := by
  simp [SimilarityMatcher.unmatched_required_of, List.mem_filter]

theorem mem_missing_iff (fuzz : PyStr → PyStr → ℕ) (t : ℕ) (a b : List PyStr) (s : PyStr) :
    s ∈ SimilarityMatcher.missing_of fuzz t a b ↔
      s ∈ SimilarityMatcher.unmatched_required_of a b ∧
        s ∉ SimilarityMatcher.matched_fuzzy_of fuzz t a b := by
  simp [SimilarityMatcher.missing_of, List.mem_filter]

theorem matched_fuzzy_subset (fuzz : PyStr → PyStr → ℕ) (t : ℕ) (a b : List PyStr) (s : PyStr)
    (h : s ∈ SimilarityMatcher.matched_fuzzy_of fuzz t a b) :
    s ∈ SimilarityMatcher.unmatched_required_of a b :=
  fuzzy_pass_fst_subset fuzz t _ _ s h

/-- C1 (amended): for every fuzzy scorer, skill lists and threshold, the
three sets `matched_exact`, `matched_fuzzy` and `missing` computed by
`SimilarityMatcher.match_skills` are pairwise disjoint and their union is
exactly the normalized required-skill set.  The claim's four-way
partition including `matched_semantic` fails: `analyze` obtains
`matched_semantic` from a separate `Embedder.semantic_skill_match` call
over the full required list, so it can overlap the other three sets
(see the counterexample). -/
theorem C1_match_partition :
    ∀ (fuzz : PyStr → PyStr → ℕ) (resume required : List PyStr) (thr : ℕ) (s : PyStr),
      (s ∈ SimilarityMatcher.skill_set required ↔
        (s ∈ (SimilarityMatcher.match_skills fuzz resume required thr).matched_exact ∨
         s ∈ (SimilarityMatcher.match_skills fuzz resume required thr).matched_fuzzy ∨
         s ∈ (SimilarityMatcher.match_skills fuzz resume required thr).missing)) ∧
      ¬ (s ∈ (SimilarityMatcher.match_skills fuzz resume required thr).matched_exact ∧
         s ∈ (SimilarityMatcher.match_skills fuzz resume required thr).matched_fuzzy) ∧
      ¬ (s ∈ (SimilarityMatcher.match_skills fuzz resume required thr).matched_exact ∧
         s ∈ (SimilarityMatcher.match_skills fuzz resume required thr).missing) ∧
      ¬ (s ∈ (SimilarityMatcher.match_skills fuzz resume required thr).matched_fuzzy ∧
         s ∈ (SimilarityMatcher.match_skills fuzz resume required thr).missing) := by
  intro fuzz a b t s
  rw [match_skills_exact_eq, match_skills_fuzzy_eq, match_skills_missing_eq]
  refine ⟨⟨?_, ?_⟩, ?_, ?_, ?_⟩
  · intro hb
    by_cases hm : s ∈ SimilarityMatcher.matched_exact_of a b
    · exact Or.inl hm
    · by_cases hf : s ∈ SimilarityMatcher.matched_fuzzy_of fuzz t a b
      · exact Or.inr (Or.inl hf)
      · exact Or.inr (Or.inr ((mem_missing_iff fuzz t a b s).mpr
          ⟨(mem_unmatched_required_iff a b s).mpr ⟨hb, hm⟩, hf⟩))
  · intro h
    rcases h with h | h | h
    · exact ((mem_matched_exact_iff a b s).mp h).2
    · exact ((mem_unmatched_required_iff a b s).mp (matched_fuzzy_subset fuzz t a b s h)).1
    · exact ((mem_unmatched_required_iff a b s).mp ((mem_missing_iff fuzz t a b s).mp h).1).1
  · rintro ⟨he, hf⟩
    exact ((mem_unmatched_required_iff a b s).mp (matched_fuzzy_subset fuzz t a b s hf)).2 he
  · rintro ⟨he, hm⟩
    exact ((mem_unmatched_required_iff a b s).mp ((mem_missing_iff fuzz t a b s).mp hm).1).2 he
  · rintro ⟨hf, hm⟩
    exact ((mem_missing_iff fuzz t a b s).mp hm).2 hf

/-- C1 witness: in a concrete run, the required skill "java" lands in
one of the three sets of `match_skills`. -/
theorem C1_match_partition_witness :
    pyStr "java" ∈ (SimilarityMatcher.match_skills (fun _ _ => 0) [pyStr "python"] [pyStr "java"] 85).matched_exact ∨
    pyStr "java" ∈ (SimilarityMatcher.match_skills (fun _ _ => 0) [pyStr "python"] [pyStr "java"] 85).matched_fuzzy ∨
    pyStr "java" ∈ (SimilarityMatcher.match_skills (fun _ _ => 0) [pyStr "python"] [pyStr "java"] 85).missing :=
  (C1_match_partition (fun _ _ => 0) [pyStr "python"] [pyStr "java"] 85 (pyStr "java")).1.mp
    (by decide)

/-- C1 counterexample: with resume skill "python" and required skill
"python", `match_skills` puts "python" in `matched_exact`, while
`semantic_skill_match` — run by `analyze` on the same full required
list, with the self-similarity 1 every embedding model assigns a skill
paired with itself — also reports "python" as semantically matched, so
the four sets of the claim are not pairwise disjoint. -/
theorem semantic_self_match (sim : ℕ → ℕ → ℚ) (thr : ℚ) (s : PyStr)
    (hs : s ≠ []) (hstrip : pyStrip s = s)
    (hsim : thr ≤ sim 0 0 ∧ 0 < sim 0 0) :
    (Embedder.semantic_skill_match sim [s] [s] thr).matched = [s] := by
  have hbest : Embedder.best_semantic sim thr 0 1 [] = some (0, sim 0 0) := by
    unfold Embedder.best_semantic
    rw [show List.range 1 = [0] from by decide]
    simp [hsim]
  unfold Embedder.semantic_skill_match
  rw [if_neg (by simp)]
  simp [hs, hstrip, List.enum, List.enumFrom, Embedder.semantic_pass, hbest]

theorem C1_match_partition_counterexample :
    pyStr "python" ∈ (SimilarityMatcher.match_skills (fun _ _ => 0) [pyStr "python"] [pyStr "python"] 85).matched_exact ∧
    pyStr "python" ∈ (Embedder.semantic_skill_match (fun _ _ => 1) [pyStr "python"] [pyStr "python"] (7 / 10)).matched := by
  constructor
  · decide
  · rw [semantic_self_match (fun _ _ => 1) (7 / 10) (pyStr "python") (by decide) (by decide)
      (by constructor <;> norm_num)]
    exact List.mem_singleton.mpr rfl

/-- C10 (amended): when every entry of the required list is falsy (the
empty string), normalization yields the empty list and `match_skills`
returns without error with `match_percentage` 0 (not 100) and
`matched_exact`, `matched_fuzzy`, `missing` all empty.  Whitespace-only
entries, however, are not covered: the `if s` truthiness filter runs
before `.strip()`, so they normalize to the empty string and survive
into the required set (see the counterexample). -/
theorem C10_empty_required_zero :
    ∀ (fuzz : PyStr → PyStr → ℕ) (resume required : List PyStr) (thr : ℕ),
      (∀ s ∈ required, s = []) →
      (SimilarityMatcher.match_skills fuzz resume required thr).matched_exact = [] ∧
      (SimilarityMatcher.match_skills fuzz resume required thr).matched_fuzzy = [] ∧
      (SimilarityMatcher.match_skills fuzz resume required thr).missing = [] ∧
      (SimilarityMatcher.match_skills fuzz resume required thr).match_percentage = 0 ∧
      (SimilarityMatcher.match_skills fuzz resume required thr).total_required = 0 := by
  intro fuzz a b t hb
  have hnorm : SimilarityMatcher.normalize_skills b = [] := by
    unfold SimilarityMatcher.normalize_skills
    rw [List.filter_eq_nil.mpr ?_]
    · rfl
    · intro s hs
      simp [hb s hs]
  have hset : SimilarityMatcher.skill_set b = [] := by
    unfold SimilarityMatcher.skill_set
    rw [hnorm]
    rfl
  have hme : SimilarityMatcher.matched_exact_of a b = [] := by
    unfold SimilarityMatcher.matched_exact_of
    apply List.filter_eq_nil.mpr
    intro s _
    rw [hset]
    simp
  have hur : SimilarityMatcher.unmatched_required_of a b = [] := by
    unfold SimilarityMatcher.unmatched_required_of
    rw [hset]
    rfl
  have hmf : SimilarityMatcher.matched_fuzzy_of fuzz t a b = [] := by
    unfold SimilarityMatcher.matched_fuzzy_of
    rw [hur]
    rfl
  have hmiss : SimilarityMatcher.missing_of fuzz t a b = [] := by
    unfold SimilarityMatcher.missing_of
    rw [hur]
    rfl
  refine ⟨hme, ?_, hmiss, ?_, ?_⟩
  · rw [match_skills_fuzzy_eq]
    exact hmf
  · show (if SimilarityMatcher.normalize_skills b = [] then (0 : ℚ) else _) = 0
    rw [if_pos hnorm]
  · show (SimilarityMatcher.normalize_skills b).length = 0
    rw [hnorm]
    rfl

/-- C10 witness: a required list consisting of one empty string yields
the all-empty, zero-percent result. -/
theorem C10_empty_required_zero_witness :
    (SimilarityMatcher.match_skills (fun _ _ => 0) [pyStr "python"] [[]] 85).matched_exact = [] ∧
    (SimilarityMatcher.match_skills (fun _ _ => 0) [pyStr "python"] [[]] 85).matched_fuzzy = [] ∧
    (SimilarityMatcher.match_skills (fun _ _ => 0) [pyStr "python"] [[]] 85).missing = [] ∧
    (SimilarityMatcher.match_skills (fun _ _ => 0) [pyStr "python"] [[]] 85).match_percentage = 0 ∧
    (SimilarityMatcher.match_skills (fun _ _ => 0) [pyStr "python"] [[]] 85).total_required = 0 :=
  C10_empty_required_zero (fun _ _ => 0) [pyStr "python"] [[]] 85 (by decide)

/-- C10 counterexample: a required list whose only entry is a single
space normalizes to the empty string, not to the empty list — `missing`
comes back as `[""]`, not `[]` as the claim asserts. -/
theorem C10_empty_required_zero_counterexample :
    ¬ ((SimilarityMatcher.match_skills (fun _ _ => 0) [] [pyStr " "] 85).missing = []) := by
  decide

theorem le_maxNat {l : List ℕ} {n : ℕ} (h : n ∈ l) : n ≤ maxNat l := by
  induction l with
  | nil => cases h
  | cons a t ih =>
    rcases List.mem_cons.mp h with rfl | hm
    · exact Nat.le_max_left _ _
    · exact (ih hm).trans (Nat.le_max_right a (maxNat t))

theorem first_pattern_max_find (low : PyStr) :
    ∀ ps, ExperienceScorer.first_pattern_max ps low =
      match ps.find? (fun p => !(findall p low).isEmpty) with
      | some p => some (maxNat (findall p low))
      | none => none := by
  intro ps
  induction ps with
  | nil => rfl
  | cons p rest ih =>
    by_cases h : findall p low = []
    · rw [ExperienceScorer.first_pattern_max, if_pos h, ih,
        List.find?_cons_of_neg _ (by simp [h])]
    · rw [ExperienceScorer.first_pattern_max, if_neg h,
        List.find?_cons_of_pos _ (by simp [h])]

theorem eyft_eq_first_match (text : PyStr) (ht : text ≠ []) :
    ExperienceScorer.extract_years_from_text text =
      match ExperienceScorer.experience_patterns.find?
          (fun p => !(findall p (pyLower text)).isEmpty) with
      | some p => some (maxNat (findall p (pyLower text)))
      | none => ExperienceScorer.seniorityFallback (pyLower text) := by
  unfold ExperienceScorer.extract_years_from_text
  rw [if_neg ht, first_pattern_max_find]
  cases hf : ExperienceScorer.experience_patterns.find?
      (fun p => !(findall p (pyLower text)).isEmpty) with
  | none => simp
  | some p => simp

/-- C4 (amended): `ExperienceScorer.extract_years_from_text` returns
the maximum over the matches of the FIRST pattern (in the fixed order)
that matches at all — not over the matches of all patterns — falling
back to a seniority-keyword estimate, and returns `None` (a value
distinct from 0) only when neither numeric patterns nor seniority
keywords hit.  `SkillExtractor.extract_years_of_experience`, by
contrast, does aggregate the matches of all its patterns and bounds
them by its `max_years`, but on a no-match text it returns
`{max_years: 0, total_mentions: 0}` — zero, not a distinct unknown. -/
theorem C4_years_extraction :
    (∀ text : PyStr, text ≠ [] →
      ExperienceScorer.extract_years_from_text text =
        match ExperienceScorer.experience_patterns.find?
            (fun p => !(findall p (pyLower text)).isEmpty) with
        | some p => some (maxNat (findall p (pyLower text)))
        | none => ExperienceScorer.seniorityFallback (pyLower text)) ∧
    (∀ text : PyStr,
      ExperienceScorer.experience_patterns.all
        (fun p => (findall p (pyLower text)).isEmpty) = true →
      ExperienceScorer.seniority_levels.all
        (fun p => !pyContains (pyLower text) p.1) = true →
      ExperienceScorer.extract_years_from_text text = none) ∧
    (∀ (text : PyStr) (p : PyStr → Option (ℕ × PyStr)) (n : ℕ),
      p ∈ SkillExtractor.skill_patterns → n ∈ findall p (pyLower text) →
      n ≤ (SkillExtractor.extract_years_of_experience text).max_years) ∧
    (∀ text : PyStr,
      SkillExtractor.skill_patterns.all
        (fun p => (findall p (pyLower text)).isEmpty) = true →
      SkillExtractor.extract_years_of_experience text = ⟨0, 0⟩) := by
  refine ⟨fun text ht => eyft_eq_first_match text ht, ?_, ?_, ?_⟩
  · intro text hp hk
    by_cases ht : text = []
    · simp [ExperienceScorer.extract_years_from_text, ht]
    · rw [eyft_eq_first_match text ht]
      have hfind : ExperienceScorer.experience_patterns.find?
          (fun p => !(findall p (pyLower text)).isEmpty) = none := by
        apply List.find?_eq_none.mpr
        intro p hmem
        have := List.all_eq_true.mp hp p hmem
        simp at this
        simp [this]
      rw [hfind]
      unfold ExperienceScorer.seniorityFallback
      rw [List.find?_eq_none.mpr (fun q hq => by simpa using List.all_eq_true.mp hk q hq)]
  · intro text p n hp hmem
    have hjoin : n ∈ (SkillExtractor.skill_patterns.map
        (fun q => findall q (pyLower text))).join :=
      List.mem_join.mpr ⟨findall p (pyLower text), List.mem_map_of_mem _ hp, hmem⟩
    have hne : (SkillExtractor.skill_patterns.map
        (fun q => findall q (pyLower text))).join ≠ [] :=
      List.ne_nil_of_mem hjoin
    unfold SkillExtractor.extract_years_of_experience
    rw [if_neg hne]
    exact le_maxNat hjoin
  · intro text hall
    have h1 := List.all_eq_true.mp hall
    have e1 : findall SkillExtractor.matchQ1 (pyLower text) = [] := by
      simpa using h1 SkillExtractor.matchQ1 (by simp [SkillExtractor.skill_patterns])
    have e2 : findall SkillExtractor.matchQ2 (pyLower text) = [] := by
      simpa using h1 SkillExtractor.matchQ2 (by simp [SkillExtractor.skill_patterns])
    have e3 : findall SkillExtractor.matchQ3 (pyLower text) = [] := by
      simpa using h1 SkillExtractor.matchQ3 (by simp [SkillExtractor.skill_patterns])
    unfold SkillExtractor.extract_years_of_experience
    simp [SkillExtractor.skill_patterns, e1, e2, e3]

/-- C4 witness: on a text with no numeric pattern and no seniority
keyword, the extraction result is `None`, distinct from zero. -/
theorem C4_years_extraction_witness :
    ExperienceScorer.extract_years_from_text (pyStr "hello world") = none :=
  C4_years_extraction.2.1 (pyStr "hello world") (by decide) (by decide)

/-- C4 counterexample: on "10 years in banking and 3 years of
experience" the first pattern matches only the 3, so the function
returns 3, while the maximum over all matches of all patterns — what
the claim says is returned — is 10 (pattern 2 also finds the 10). -/
theorem C4_years_extraction_counterexample :
    ExperienceScorer.extract_years_from_text
        (pyStr "10 years in banking and 3 years of experience") = some 3 ∧
    spec_max_over_all_patterns
        (pyStr "10 years in banking and 3 years of experience") = some 10 ∧
    (3 : ℕ) ≠ 10 := by
  refine ⟨by decide, by decide, by decide⟩


theorem lit_suffix {w cs r : PyStr} (h : lit w cs = some r) : r <:+ cs := by
  unfold lit at h
  by_cases hp : w.isPrefixOf cs
  · rw [if_pos hp] at h
    cases h
    exact List.drop_suffix _ _
  · rw [if_neg hp] at h
    cases h

theorem optChar_suffix (c : ℕ) (cs : PyStr) : optChar c cs <:+ cs := by
  cases cs with
  | nil => exact List.suffix_refl _
  | cons d t =>
    show (if d = c then t else d :: t) <:+ d :: t
    by_cases hd : d = c
    · rw [if_pos hd]
      exact List.suffix_cons d t
    · rw [if_neg hd]

theorem lit_mem_head {w cs r : PyStr} {c : ℕ} (hw : w.head? = some c)
    (h : lit w cs = some r) : c ∈ cs := by
  unfold lit at h
  by_cases hp : w.isPrefixOf cs
  · have hpre : w <+: cs := List.isPrefixOf_iff_prefix.mp hp
    apply hpre.mem
    cases w with
    | nil => cases hw
    | cons a t =>
      cases hw
      exact List.mem_cons_self _ _
  · rw [if_neg hp] at h
    cases h

theorem tryUrl_none {cs : PyStr} (h : ∀ n ∈ cs, n ≠ 58) :
    TextCleaner.tryUrl cs = none := by
  unfold TextCleaner.tryUrl
  split
  · rfl
  · rename_i r1 h1
    split
    · rfl
    · rename_i r3 h2
      exfalso
      have hmem : (58 : ℕ) ∈ optChar 115 r1 := lit_mem_head (by decide) h2
      have hsub : optChar 115 r1 <:+ cs :=
        (optChar_suffix 115 r1).trans (lit_suffix h1)
      exact h 58 (hsub.mem hmem) rfl

theorem removeUrlsGo_id : ∀ (f : ℕ) (cs : PyStr), (∀ n ∈ cs, n ≠ 58) →
    TextCleaner.removeUrlsGo f cs = cs := by
  intro f
  induction f with
  | zero => intro cs _; rfl
  | succ f ih =>
    intro cs h
    cases cs with
    | nil => rfl
    | cons c t =>
      rw [TextCleaner.removeUrlsGo, tryUrl_none h]
      rw [ih t (fun n hn => h n (List.mem_cons_of_mem c hn))]

theorem litChar_mem {c : ℕ} {cs r : PyStr} (h : litChar c cs = some r) : c ∈ cs := by
  unfold litChar at h
  split at h
  · cases h
  · rename_i d t
    split at h
    · rename_i hd
      subst hd
      exact List.mem_cons_self _ _
    · cases h

theorem tryEmail_none {prev : Option ℕ} {cs : PyStr} (h : ∀ n ∈ cs, n ≠ 64) :
    TextCleaner.tryEmail prev cs = none := by
  unfold TextCleaner.tryEmail
  split
  · rfl
  · rename_i c0 rest hl
    by_cases hb : TextCleaner.isWordOpt prev = isPyWord c0
    · rw [if_pos hb]
    · rw [if_neg hb]
      split
      · rfl
      · rename_i r2 h2
        exfalso
        have hmem : (64 : ℕ) ∈ cs.dropWhile (fun n => TextCleaner.isLocalChar n) :=
          litChar_mem h2
        exact h 64 ((List.dropWhile_sublist _).mem hmem) rfl

theorem removeEmailsGo_id : ∀ (f : ℕ) (prev : Option ℕ) (cs : PyStr),
    (∀ n ∈ cs, n ≠ 64) → TextCleaner.removeEmailsGo f prev cs = cs := by
  intro f
  induction f with
  | zero => intro prev cs _; rfl
  | succ f ih =>
    intro prev cs h
    cases cs with
    | nil => rfl
    | cons c t =>
      rw [TextCleaner.removeEmailsGo, tryEmail_none h]
      rw [ih (some c) t (fun n hn => h n (List.mem_cons_of_mem c hn))]

theorem hasDoubleSpaceB_tail {c : ℕ} {t : PyStr}
    (h : TextCleaner.hasDoubleSpaceB (c :: t) = false) :
    TextCleaner.hasDoubleSpaceB t = false := by
  cases t with
  | nil => rfl
  | cons b t2 =>
    rw [TextCleaner.hasDoubleSpaceB] at h
    exact (Bool.or_eq_false_iff.mp h).2

theorem wsCollapseGo_id : ∀ (f : ℕ) (cs : PyStr),
    (∀ n ∈ cs, isPySpace n = true → n = 32) →
    TextCleaner.hasDoubleSpaceB cs = false →
    TextCleaner.wsCollapseGo f cs = cs := by
  intro f
  induction f with
  | zero => intro cs _ _; rfl
  | succ f ih =>
    intro cs h32 hd
    cases cs with
    | nil => rfl
    | cons c t =>
      rw [TextCleaner.wsCollapseGo]
      by_cases hsp : isPySpace c = true
      · rw [if_pos hsp]
        have hc : c = 32 := h32 c (List.mem_cons_self c t) hsp
        have hdw : t.dropWhile (fun n => isPySpace n) = t := by
          cases t with
          | nil => rfl
          | cons b t2 =>
            have hdb := hd
            rw [TextCleaner.hasDoubleSpaceB] at hdb
            have h1 := (Bool.or_eq_false_iff.mp hdb).1
            have hbsp : isPySpace b = false := by
              cases hx : isPySpace b
              · rfl
              · rw [hsp, hx] at h1
                cases h1
            rw [List.dropWhile_cons]
            simp [hbsp]
        rw [hdw, hc]
        rw [ih t (fun n hn hs => h32 n (List.mem_cons_of_mem c hn) hs) (hasDoubleSpaceB_tail hd)]
      · rw [if_neg hsp]
        rw [ih t (fun n hn hs => h32 n (List.mem_cons_of_mem c hn) hs) (hasDoubleSpaceB_tail hd)]

theorem nlCollapseGo_id : ∀ (f : ℕ) (cs : PyStr), (∀ n ∈ cs, n ≠ 10) →
    TextCleaner.nlCollapseGo f cs = cs := by
  intro f
  induction f with
  | zero => intro cs _; rfl
  | succ f ih =>
    intro cs h
    cases cs with
    | nil => rfl
    | cons c t =>
      rw [TextCleaner.nlCollapseGo, if_neg (h c (List.mem_cons_self c t))]
      rw [ih t (fun n hn => h n (List.mem_cons_of_mem c hn))]

theorem remove_special_chars_id {cs : PyStr}
    (h : ∀ n ∈ cs, TextCleaner.mojibake.contains n = false ∧ TextCleaner.isKeptChar n = true) :
    TextCleaner.remove_special_chars cs = cs := by
  unfold TextCleaner.remove_special_chars
  have hf : cs.filter (fun n => !TextCleaner.mojibake.contains n) = cs :=
    List.filter_eq_self.mpr (fun a ha => by simp only [(h a ha).1, Bool.not_false])
  rw [hf]
  have hm : cs.map (fun n => if TextCleaner.isKeptChar n then n else 32) = cs.map id :=
    List.map_congr_left (fun a ha => by simp [(h a ha).2])
  rw [hm, List.map_id]

theorem tryBullet_none {c : ℕ} {t : PyStr} (hsp : isPySpace c = false)
    (hnb : TextCleaner.bulletChars.contains c = false) :
    TextCleaner.tryBullet (c :: t) = none := by
  unfold TextCleaner.tryBullet
  rw [List.dropWhile_cons]
  simp only [hsp]
  have hcm : c ∉ TextCleaner.bulletChars := by simpa using hnb
  simp [hcm]

theorem bulletsGo_id : ∀ (f : ℕ) (atStart : Bool) (cs : PyStr),
    (∀ n ∈ cs, n ≠ 10) →
    (atStart = true → TextCleaner.tryBullet cs = none) →
    TextCleaner.bulletsGo f atStart cs = cs := by
  intro f
  induction f with
  | zero => intro atStart cs _ _; rfl
  | succ f ih =>
    intro atStart cs h10 hstart
    cases cs with
    | nil => cases atStart <;> rfl
    | cons c t =>
      have hc10 : (c == 10) = false := by
        simp [h10 c (List.mem_cons_self c t)]
      cases atStart with
      | true =>
        rw [TextCleaner.bulletsGo, if_pos rfl, hstart rfl]
        rw [hc10]
        rw [ih false t (fun n hn => h10 n (List.mem_cons_of_mem c hn)) (by intro hx; cases hx)]
      | false =>
        rw [TextCleaner.bulletsGo, if_neg (by simp)]
        rw [hc10]
        rw [ih false t (fun n hn => h10 n (List.mem_cons_of_mem c hn)) (by intro hx; cases hx)]

theorem wsCollapseGo_mem : ∀ (f : ℕ) (cs : PyStr) (n : ℕ), cs.length ≤ f →
    n ∈ TextCleaner.wsCollapseGo f cs →
    n = 32 ∨ (n ∈ cs ∧ isPySpace n = false) := by
  intro f
  induction f with
  | zero =>
    intro cs n hlen hmem
    rw [List.length_eq_zero.mp (Nat.le_zero.mp hlen)] at hmem
    cases hmem
  | succ f ih =>
    intro cs n hlen hmem
    cases cs with
    | nil => cases hmem
    | cons c t =>
      rw [TextCleaner.wsCollapseGo] at hmem
      by_cases hsp : isPySpace c = true
      · rw [if_pos hsp] at hmem
        rcases List.mem_cons.mp hmem with rfl | hm
        · exact Or.inl rfl
        · have hlen2 : (t.dropWhile (fun n => isPySpace n)).length ≤ f :=
            le_trans ((List.dropWhile_sublist _).length_le) (Nat.succ_le_succ_iff.mp hlen)
          rcases ih _ n hlen2 hm with h32 | ⟨hmem2, hns⟩
          · exact Or.inl h32
          · exact Or.inr ⟨List.mem_cons_of_mem c ((List.dropWhile_sublist _).mem hmem2), hns⟩
      · rw [if_neg hsp] at hmem
        rcases List.mem_cons.mp hmem with rfl | hm
        · exact Or.inr ⟨List.mem_cons_self _ _, Bool.eq_false_iff.mpr hsp⟩
        · rcases ih t n (Nat.succ_le_succ_iff.mp hlen) hm with h32 | ⟨hmem2, hns⟩
          · exact Or.inl h32
          · exact Or.inr ⟨List.mem_cons_of_mem c hmem2, hns⟩

theorem collapse_ws_space {cs : PyStr} {n : ℕ} (hmem : n ∈ TextCleaner.collapse_ws cs)
    (hsp : isPySpace n = true) : n = 32 := by
  rcases wsCollapseGo_mem cs.length cs n le_rfl hmem with h32 | ⟨_, hns⟩
  · exact h32
  · rw [hsp] at hns
    cases hns

theorem collapse_ws_no_nl {cs : PyStr} {n : ℕ} (hmem : n ∈ TextCleaner.collapse_ws cs) :
    n ≠ 10 := by
  intro h10
  subst h10
  have := collapse_ws_space hmem (by decide)
  cases this

theorem remove_special_chars_mem {cs : PyStr} {n : ℕ}
    (hmem : n ∈ TextCleaner.remove_special_chars cs) :
    (n ∈ cs ∧ TextCleaner.isKeptChar n = true) ∨ n = 32 := by
  unfold TextCleaner.remove_special_chars at hmem
  rcases List.mem_map.mp hmem with ⟨m, hm, heq⟩
  by_cases hk : TextCleaner.isKeptChar m = true
  · rw [if_pos hk] at heq
    subst heq
    exact Or.inl ⟨(List.filter_sublist _).mem hm, hk⟩
  · rw [if_neg hk] at heq
    exact Or.inr heq.symm

theorem tryBullet_suffix {cs rest : PyStr} (h : TextCleaner.tryBullet cs = some rest) :
    rest <:+ cs := by
  unfold TextCleaner.tryBullet at h
  split at h
  · cases h
  · rename_i b t hdw
    by_cases hb : TextCleaner.bulletChars.contains b = true
    · rw [if_pos hb] at h
      cases h
      have h1 : t.dropWhile (fun n => isPySpace n) <:+ t := List.dropWhile_suffix _
      have h2 : t <:+ b :: t := List.suffix_cons b t
      have h3 : b :: t <:+ cs := by
        rw [← hdw]
        exact List.dropWhile_suffix _
      exact (h1.trans h2).trans h3
    · rw [if_neg hb] at h
      cases h

theorem bulletsGo_mem : ∀ (f : ℕ) (b : Bool) (cs : PyStr) (n : ℕ),
    n ∈ TextCleaner.bulletsGo f b cs → n ∈ cs := by
  intro f
  induction f with
  | zero => intro b cs n hmem; exact hmem
  | succ f ih =>
    intro b cs n hmem
    cases cs with
    | nil => cases hmem
    | cons c t =>
      cases b with
      | true =>
        rw [TextCleaner.bulletsGo, if_pos rfl] at hmem
        cases htb : TextCleaner.tryBullet (c :: t) with
        | some rest =>
          rw [htb] at hmem
          exact (tryBullet_suffix htb).mem (ih _ rest n hmem)
        | none =>
          rw [htb] at hmem
          rcases List.mem_cons.mp hmem with rfl | hm
          · exact List.mem_cons_self _ _
          · exact List.mem_cons_of_mem c (ih _ t n hm)
      | false =>
        rw [TextCleaner.bulletsGo, if_neg (by simp)] at hmem
        rcases List.mem_cons.mp hmem with rfl | hm
        · exact List.mem_cons_self _ _
        · exact List.mem_cons_of_mem c (ih _ t n hm)

theorem pyLowerChar_not_upper (n : ℕ) : ¬(65 ≤ pyLowerChar n ∧ pyLowerChar n ≤ 90) := by
  unfold pyLowerChar
  by_cases h : 65 ≤ n ∧ n ≤ 90
  · rw [if_pos h]
    omega
  · rw [if_neg h]
    exact h

theorem pyLowerChar_kept {n : ℕ} (h : TextCleaner.isKeptChar n = true) :
    TextCleaner.isKeptChar (pyLowerChar n) = true := by
  unfold pyLowerChar
  by_cases hu : 65 ≤ n ∧ n ≤ 90
  · rw [if_pos hu]
    simp only [TextCleaner.isKeptChar, isPyWord, isPyAlpha, isPyDigit, isPySpace,
      Bool.or_eq_true, decide_eq_true_eq, Bool.and_eq_true]
    omega
  · rw [if_neg hu]
    exact h

theorem pyLowerChar_space_id {n : ℕ} (h : isPySpace (pyLowerChar n) = true) :
    pyLowerChar n = n := by
  unfold pyLowerChar at h ⊢
  by_cases hu : 65 ≤ n ∧ n ≤ 90
  · rw [if_pos hu] at h
    simp only [isPySpace, Bool.or_eq_true, decide_eq_true_eq] at h
    omega
  · rw [if_neg hu]

theorem pyStrip_mem {cs : PyStr} {n : ℕ} (h : n ∈ pyStrip cs) : n ∈ cs := by
  unfold pyStrip pyStripLeft at h
  rw [List.mem_reverse] at h
  have h2 := (List.dropWhile_sublist _).mem h
  rw [List.mem_reverse] at h2
  exact (List.dropWhile_sublist _).mem h2

theorem dropWhile_head_false {p : ℕ → Bool} : ∀ {l : List ℕ} {c : ℕ} {t : List ℕ},
    l.dropWhile p = c :: t → p c = false := by
  intro l
  induction l with
  | nil => intro c t h; cases h
  | cons a s ih =>
    intro c t h
    rw [List.dropWhile_cons] at h
    by_cases ha : p a = true
    · rw [if_pos ha] at h
      exact ih h
    · rw [if_neg ha] at h
      cases h
      exact Bool.eq_false_iff.mpr ha

theorem dropWhile_self_of {p : ℕ → Bool} {l : List ℕ}
    (h : ∀ c t, l = c :: t → p c = false) : l.dropWhile p = l := by
  cases l with
  | nil => rfl
  | cons c t =>
    rw [List.dropWhile_cons, h c t rfl]
    simp

theorem pyStrip_head_false {z : PyStr} {c : ℕ} {t : PyStr}
    (h : pyStrip z = c :: t) : isPySpace c = false := by
  unfold pyStrip pyStripLeft at h
  set A := z.dropWhile (fun n => isPySpace n) with hA
  set B := A.reverse.dropWhile (fun n => isPySpace n) with hB
  have hBne : B ≠ [] := by
    intro hb
    rw [hb] at h
    cases h
  have hlast : B.getLast? = some c := by
    rw [← List.head?_reverse, h]
    rfl
  obtain ⟨pre, hpre⟩ := List.dropWhile_suffix (l := A.reverse) (fun n => isPySpace n)
  have hAr : A.reverse.getLast? = some c := by
    rw [← hpre, List.getLast?_append_of_ne_nil pre hBne]
    exact hlast
  rw [List.getLast?_reverse] at hAr
  cases hAhead : A with
  | nil =>
    rw [hAhead] at hAr
    cases hAr
  | cons a s =>
    rw [hAhead] at hAr
    have : a = c := by
      simpa using hAr
    subst this
    exact dropWhile_head_false (hA ▸ hAhead)

theorem pyStrip_rev_head_false {z : PyStr} {c : ℕ} {t : PyStr}
    (h : (pyStrip z).reverse = c :: t) : isPySpace c = false := by
  unfold pyStrip pyStripLeft at h
  rw [List.reverse_reverse] at h
  exact dropWhile_head_false h

theorem pyStrip_self_of {z : PyStr}
    (hh : ∀ c t, z = c :: t → isPySpace c = false)
    (hl : ∀ c t, z.reverse = c :: t → isPySpace c = false) : pyStrip z = z := by
  unfold pyStrip pyStripLeft
  rw [dropWhile_self_of hh, dropWhile_self_of hl, List.reverse_reverse]

theorem pyStrip_idem (z : PyStr) : pyStrip (pyStrip z) = pyStrip z :=
  pyStrip_self_of (fun _ _ h => pyStrip_head_false h)
    (fun _ _ h => pyStrip_rev_head_false h)

theorem mojibake_ge {n : ℕ} (h : n ∈ TextCleaner.mojibake) : 162 ≤ n := by
  simp only [TextCleaner.mojibake, List.mem_cons, List.not_mem_nil, or_false] at h
  rcases h with rfl | rfl | rfl | rfl | rfl | rfl | rfl | rfl | rfl | rfl | rfl <;> omega

theorem kept_le_122 {n : ℕ} (h : TextCleaner.isKeptChar n = true) : n ≤ 122 := by
  simp only [TextCleaner.isKeptChar, isPyWord, isPyAlpha, isPyDigit, isPySpace,
    Bool.or_eq_true, decide_eq_true_eq, Bool.and_eq_true] at h
  omega

theorem mojibake_not_of_kept {n : ℕ} (h : TextCleaner.isKeptChar n = true) :
    TextCleaner.mojibake.contains n = false := by
  cases hc : TextCleaner.mojibake.contains n with
  | false => rfl
  | true =>
    exfalso
    have hmem : n ∈ TextCleaner.mojibake := List.mem_of_elem_eq_true hc
    have := mojibake_ge hmem
    have := kept_le_122 h
    omega

theorem clean_eq_pipeline (x : PyStr) (hx : x ≠ []) :
    TextCleaner.clean true false x =
      pyStrip (pyLower (TextCleaner.normalize_bullets (TextCleaner.remove_special_chars
        (TextCleaner.collapse_nl (TextCleaner.collapse_ws (TextCleaner.remove_emails
          (TextCleaner.remove_urls x))))))) := by
  unfold TextCleaner.clean
  rw [if_neg hx]
  rfl

theorem clean_mem_invariant (x : PyStr) : ∀ n ∈ TextCleaner.clean true false x,
    TextCleaner.isKeptChar n = true ∧ (isPySpace n = true → n = 32) ∧
      ¬(65 ≤ n ∧ n ≤ 90) ∧ n ≠ 10 := by
  intro n hn
  by_cases hx : x = []
  · subst hx
    cases hn
  · rw [clean_eq_pipeline x hx] at hn
    set u := TextCleaner.collapse_ws (TextCleaner.remove_emails (TextCleaner.remove_urls x))
      with hu
    have hnl : TextCleaner.collapse_nl u = u :=
      nlCollapseGo_id u.length u (fun m hm => collapse_ws_no_nl hm)
    rw [hnl] at hn
    have hn6 := pyStrip_mem hn
    unfold pyLower at hn6
    rcases List.mem_map.mp hn6 with ⟨m, hm5, heq⟩
    unfold TextCleaner.normalize_bullets at hm5
    have hm4 : m ∈ TextCleaner.remove_special_chars u := bulletsGo_mem _ _ _ m hm5
    have hkept : TextCleaner.isKeptChar m = true := by
      rcases remove_special_chars_mem hm4 with ⟨_, hk⟩ | rfl
      · exact hk
      · decide
    have hspace : isPySpace m = true → m = 32 := by
      intro hs
      rcases remove_special_chars_mem hm4 with ⟨hmu, _⟩ | rfl
      · exact collapse_ws_space hmu hs
      · rfl
    subst heq
    refine ⟨pyLowerChar_kept hkept, ?_, pyLowerChar_not_upper m, ?_⟩
    · intro hs
      have hid := pyLowerChar_space_id hs
      rw [hid] at hs
      rw [hid]
      exact hspace hs
    · intro h10
      have hs : isPySpace (pyLowerChar m) = true := by
        rw [h10]
        decide
      have hid := pyLowerChar_space_id hs
      rw [hid] at h10
      subst h10
      exact absurd (hspace (by decide)) (by decide)

theorem clean_pyStrip_fixed (x : PyStr) :
    pyStrip (TextCleaner.clean true false x) = TextCleaner.clean true false x := by
  by_cases hx : x = []
  · subst hx
    rfl
  · rw [clean_eq_pipeline x hx]
    exact pyStrip_idem _

theorem clean_head_not_space {x : PyStr} {c : ℕ} {t : PyStr}
    (h : TextCleaner.clean true false x = c :: t) : isPySpace c = false := by
  by_cases hx : x = []
  · subst hx
    cases h
  · rw [clean_eq_pipeline x hx] at h
    exact pyStrip_head_false h

/-- C9 (amended): `TextCleaner.clean` (default configuration: lowercase
on, stopword removal off) is idempotent on every input whose cleaned
form contains no two adjacent whitespace characters and does not start
with a bullet character.  Unrestricted idempotence fails: the
special-character pass replaces each stray character with a space and
can thereby create double spaces that only a second pass collapses,
and the bullet pass strips one leading bullet per pass (see the
counterexample). -/
theorem C9_clean_conditional_idempotent :
    ∀ x : PyStr,
      TextCleaner.hasDoubleSpaceB (TextCleaner.clean true false x) = false →
      TextCleaner.head_is_bullet (TextCleaner.clean true false x) = false →
      TextCleaner.clean true false (TextCleaner.clean true false x) =
        TextCleaner.clean true false x := by
  intro x hds hhb
  set y := TextCleaner.clean true false x with hy
  by_cases hynil : y = []
  · rw [hynil]
    rfl
  · have hchar : ∀ n ∈ y, TextCleaner.isKeptChar n = true ∧ (isPySpace n = true → n = 32) ∧
        ¬(65 ≤ n ∧ n ≤ 90) ∧ n ≠ 10 := clean_mem_invariant x
    rw [clean_eq_pipeline y hynil]
    have hurls : TextCleaner.remove_urls y = y :=
      removeUrlsGo_id y.length y (fun n hn h58 => by
        subst h58
        exact absurd (hchar 58 hn).1 (by decide))
    have hemails : TextCleaner.remove_emails y = y :=
      removeEmailsGo_id y.length none y (fun n hn h64 => by
        subst h64
        exact absurd (hchar 64 hn).1 (by decide))
    have hws : TextCleaner.collapse_ws y = y :=
      wsCollapseGo_id y.length y (fun n hn => (hchar n hn).2.1) hds
    have hnl : TextCleaner.collapse_nl y = y :=
      nlCollapseGo_id y.length y (fun n hn => (hchar n hn).2.2.2)
    have hspecial : TextCleaner.remove_special_chars y = y :=
      remove_special_chars_id (fun n hn =>
        ⟨mojibake_not_of_kept (hchar n hn).1, (hchar n hn).1⟩)
    have hbullets : TextCleaner.normalize_bullets y = y := by
      obtain ⟨c, t, hct⟩ := List.exists_cons_of_ne_nil hynil
      have hcsp : isPySpace c = false := clean_head_not_space (hy ▸ hct)
      have hcnb : TextCleaner.bulletChars.contains c = false := by
        have := hhb
        rw [hct] at this
        exact this
      have htb : TextCleaner.tryBullet y = none := by
        rw [hct]
        exact tryBullet_none hcsp hcnb
      exact bulletsGo_id y.length true y (fun n hn => (hchar n hn).2.2.2) (fun _ => htb)
    have hlower : pyLower y = y := by
      unfold pyLower
      rw [List.map_congr_left (fun a ha => by
        show pyLowerChar a = id a
        unfold pyLowerChar
        rw [if_neg (hchar a ha).2.2.1]
        rfl), List.map_id]
    have hstrip : pyStrip y = y := by
      rw [hy]
      exact clean_pyStrip_fixed x
    rw [hurls, hemails, hws, hnl, hspecial, hbullets, hlower, hstrip]

/-- C9 witness: "Hello World" cleans to "hello world", which has no
double space and no leading bullet, so a second clean is the identity. -/
theorem C9_clean_conditional_idempotent_witness :
    TextCleaner.clean true false (TextCleaner.clean true false (pyStr "Hello World")) =
      TextCleaner.clean true false (pyStr "Hello World") :=
  C9_clean_conditional_idempotent (pyStr "Hello World") (by decide) (by decide)

/-- C9 counterexample: cleaning "--a" yields "-a" (the bullet pass
strips exactly one leading hyphen), and cleaning again yields "a", so
`clean` is not idempotent. -/
theorem C9_clean_conditional_idempotent_counterexample :
    TextCleaner.clean true false (TextCleaner.clean true false (pyStr "--a")) ≠
      TextCleaner.clean true false (pyStr "--a") := by
  decide

/-- C7 (amended): `generate_report` is deterministic in its arguments
except for the `metadata.generated_at` field, which is the
`datetime.now().isoformat()` clock reading: two calls with identical
inputs agree on every other field of the report, and `generated_at`
is exactly the clock value of each call. -/
theorem C7_generate_report_deterministic_except_clock :
    ∀ (now1 now2 : PyStr) (fs ss sem es qs : ℚ)
      (me mf msem miss extra : List PyStr) (sim : ℚ)
      (ea : Option SummaryGenerator.ExpGapAnalysis) (rt jt : PyStr)
      (job : Option PyStr) (ci : Option (List (PyStr × PyStr))),
      (SummaryGenerator.generate_report now1 fs ss sem es qs me mf msem miss extra sim ea rt jt job ci).metadata.generated_at = now1 ∧
      (SummaryGenerator.generate_report now2 fs ss sem es qs me mf msem miss extra sim ea rt jt job ci).metadata.generated_at = now2 ∧
      (SummaryGenerator.generate_report now1 fs ss sem es qs me mf msem miss extra sim ea rt jt job ci).metadata.job_title =
        (SummaryGenerator.generate_report now2 fs ss sem es qs me mf msem miss extra sim ea rt jt job ci).metadata.job_title ∧
      (SummaryGenerator.generate_report now1 fs ss sem es qs me mf msem miss extra sim ea rt jt job ci).metadata.analyzer_version =
        (SummaryGenerator.generate_report now2 fs ss sem es qs me mf msem miss extra sim ea rt jt job ci).metadata.analyzer_version ∧
      (SummaryGenerator.generate_report now1 fs ss sem es qs me mf msem miss extra sim ea rt jt job ci).contact_info =
        (SummaryGenerator.generate_report now2 fs ss sem es qs me mf msem miss extra sim ea rt jt job ci).contact_info ∧
      (SummaryGenerator.generate_report now1 fs ss sem es qs me mf msem miss extra sim ea rt jt job ci).overall_score =
        (SummaryGenerator.generate_report now2 fs ss sem es qs me mf msem miss extra sim ea rt jt job ci).overall_score ∧
      (SummaryGenerator.generate_report now1 fs ss sem es qs me mf msem miss extra sim ea rt jt job ci).skills_analysis =
        (SummaryGenerator.generate_report now2 fs ss sem es qs me mf msem miss extra sim ea rt jt job ci).skills_analysis ∧
      (SummaryGenerator.generate_report now1 fs ss sem es qs me mf msem miss extra sim ea rt jt job ci).semantic_analysis =
        (SummaryGenerator.generate_report now2 fs ss sem es qs me mf msem miss extra sim ea rt jt job ci).semantic_analysis ∧
      (SummaryGenerator.generate_report now1 fs ss sem es qs me mf msem miss extra sim ea rt jt job ci).experience_analysis =
        (SummaryGenerator.generate_report now2 fs ss sem es qs me mf msem miss extra sim ea rt jt job ci).experience_analysis ∧
      (SummaryGenerator.generate_report now1 fs ss sem es qs me mf msem miss extra sim ea rt jt job ci).strengths =
        (SummaryGenerator.generate_report now2 fs ss sem es qs me mf msem miss extra sim ea rt jt job ci).strengths ∧
      (SummaryGenerator.generate_report now1 fs ss sem es qs me mf msem miss extra sim ea rt jt job ci).recommendations =
        (SummaryGenerator.generate_report now2 fs ss sem es qs me mf msem miss extra sim ea rt jt job ci).recommendations ∧
      (SummaryGenerator.generate_report now1 fs ss sem es qs me mf msem miss extra sim ea rt jt job ci).summary =
        (SummaryGenerator.generate_report now2 fs ss sem es qs me mf msem miss extra sim ea rt jt job ci).summary := by
  intro now1 now2 fs ss sem es qs me mf msem miss extra sim ea rt jt job ci
  exact ⟨rfl, rfl, rfl, rfl, rfl, rfl, rfl, rfl, rfl, rfl, rfl, rfl⟩

/-- C7 counterexample: two calls with identical input arguments but
different clock readings produce different report dictionaries — the
output depends on `datetime.now()`, not on the arguments alone, so the
claimed determinism over every field fails. -/
theorem C7_generate_report_counterexample :
    SummaryGenerator.generate_report (pyStr "2024-01-01T00:00:00") 0 0 0 0 0
        [] [] [] [] [] 0 none [] [] none none ≠
      SummaryGenerator.generate_report (pyStr "2024-01-01T00:00:01") 0 0 0 0 0
        [] [] [] [] [] 0 none [] [] none none := by
  intro h
  exact absurd (congrArg (fun r => r.metadata.generated_at) h) (by decide)
